import Mathlib

/-!
Verification of the RAL context-intelligence core against its specification.

The definitions below are a shallow embedding of the Python source under
`services/ral-core/app`:

* `app/models/context.py` — the `Context` record, its `confirm` and
  `record_correction` methods, and the enums `ContextType`, `MemoryTier`,
  `DriftStatus`;
* `app/services/context_memory.py` — the memory service (`store`, `update`,
  `confirm`, `record_correction`, `delete`, `_get_by_key`,
  `_get_latest_version_number`, `_create_version`);
* `app/engines/temporal.py` — the temporal engine (`interpret`,
  `resolve_reference`, `handle_midnight_crossover`, pattern tables);
* `app/engines/drift.py` — `_check_confidence`;
* `app/engines/composer.py` — the prompt composer pipeline;
* `app/core/event_bus.py` — the dual-path resolution bus
  (`_request_high_entropy_context`, `handle_response`,
  `resolve_atomic_context`).

Modelling conventions: Python floats are modelled as rationals (the claims
only involve exact decimal constants); JSON values handled opaquely by the
source are modelled as `String`; `datetime.now(...)` is passed in as an
explicit clock argument; database sessions become an explicit `Memory`
state; a raised exception becomes `Except.error`.
-/

namespace RAL

/-- `ContextType` from app/models/context.py. -/
inductive ContextType where
  | temporal
  | spatial
  | situational
  | meta
deriving DecidableEq, Repr

/-- `MemoryTier` from app/models/context.py. -/
inductive MemoryTier where
  | long_term
  | short_term
  | ephemeral
deriving DecidableEq, Repr

/-- `DriftStatus` from app/models/context.py. -/
inductive DriftStatus where
  | stable
  | drifting
  | conflicting
  | stale
deriving DecidableEq, Repr

/-- Opaque JSON value (the source moves `value` / `interpretation` blobs
around without inspecting them in the operations modelled here). -/
abbrev Val := String

/-- The `Context` ORM row from app/models/context.py, with the columns the
memory service reads or writes.  `id` is a `Nat` surrogate for the UUID
primary key; timestamps are rationals (seconds). -/
structure Ctx where
  id : Nat
  user_id : Nat
  context_type : ContextType
  memory_tier : MemoryTier
  key : String
  value : Val
  interpretation : Option Val
  confidence : ℚ
  source : String
  source_details : Option Val
  drift_status : DriftStatus
  last_confirmed_at : Option ℚ
  correction_count : Nat
  expires_at : Option ℚ
  is_active : Bool
  session_id : Option String
  created_at : ℚ
  updated_at : ℚ
  deleted_at : Option ℚ
deriving DecidableEq, Repr

/-- `Context.confirm` (app/models/context.py lines 227-231): stamp
`last_confirmed_at`, raise confidence by 0.2 clamped at 1.0, and set
`drift_status` to stable unconditionally (`updated_at` is bumped by the
`onupdate` hook of `TimestampMixin` when the change is flushed). -/
def Ctx.confirm (c : Ctx) (now : ℚ) : Ctx :=
  { c with
    last_confirmed_at := some now
    confidence := min 1 (c.confidence + 1/5)
    drift_status := DriftStatus.stable
    updated_at := now }

/-- `Context.record_correction` (app/models/context.py lines 233-238):
increment `correction_count`, lower confidence by 0.2 clamped at 0.0, and
force `drift_status = conflicting` once the count reaches 3. -/
def Ctx.record_correction (c : Ctx) : Ctx :=
  let c := { c with
    correction_count := c.correction_count + 1
    confidence := max 0 (c.confidence - 1/5) }
  if c.correction_count ≥ 3 then
    { c with drift_status := DriftStatus.conflicting }
  else
    c

/-- A `ContextVersion` row from app/models/context.py. -/
structure Version where
  context_id : Nat
  version : Nat
  value : Val
  interpretation : Option Val
  confidence : ℚ
  changed_by : String
  change_reason : Option String
  previous_value : Option Val
deriving DecidableEq, Repr

/-- The database state the memory service operates on: the `contexts` and
`context_versions` tables plus a fresh-id supply for inserts. -/
structure Memory where
  records : List Ctx
  versions : List Version
  next_id : Nat
deriving Repr

/-- The empty database. -/
def Memory.empty : Memory := ⟨[], [], 0⟩

/-- `_get_by_key` (context_memory.py lines 683-701): the active record for
`(user_id, context_type, key)`. -/
def Memory.get_by_key (m : Memory) (u : Nat) (ty : ContextType) (k : String) :
    Option Ctx :=
  m.records.find? fun c =>
    c.user_id = u ∧ c.context_type = ty ∧ c.key = k ∧ c.is_active = true

/-- `get_by_id` (context_memory.py lines 228-241). -/
def Memory.get_by_id (m : Memory) (cid : Nat) : Option Ctx :=
  m.records.find? fun c => c.id = cid

/-- `_get_latest_version_number` (context_memory.py lines 731-737):
`max(version)` over the context's versions, or 0. -/
def Memory.latest_version (m : Memory) (cid : Nat) : Nat :=
  (m.versions.filter fun v => v.context_id = cid).foldl
    (fun acc v => max acc v.version) 0

/-- `_create_version` (context_memory.py lines 703-729): append a
`ContextVersion` row. -/
def Memory.create_version (m : Memory) (v : Version) : Memory :=
  { m with versions := m.versions ++ [v] }

/-- In-place row update, as SQLAlchemy's attribute assignment followed by a
flush: every row with the record's id is replaced (ids are unique in the
database, so exactly the fetched row changes). -/
def Memory.put (m : Memory) (cid : Nat) (f : Ctx → Ctx) : Memory :=
  { m with records := m.records.map fun c => if c.id = cid then f c else c }

/-- `update` (context_memory.py lines 155-226): load the record (ValueError
when absent), apply the optional changes, set `source` and `updated_at`,
then append version `prev + 1` carrying the previous value. -/
def Memory.update (m : Memory) (cid : Nat) (value : Option Val)
    (confidence : Option ℚ) (source : String) (interpretation : Option Val)
    (change_reason : Option String) (now : ℚ) : Except String Memory :=
  match m.get_by_id cid with
  | none => Except.error "Context not found"
  | some c =>
    let previous_value := c.value
    let current_version := m.latest_version cid
    let c' : Ctx := { c with
      value := value.getD c.value
      confidence := confidence.getD c.confidence
      interpretation := match interpretation with
        | some i => some i
        | none => c.interpretation
      source := source
      updated_at := now }
    let m' := m.put cid fun _ => c'
    Except.ok (m'.create_version
      { context_id := c.id
        version := current_version + 1
        value := c'.value
        interpretation := c'.interpretation
        confidence := c'.confidence
        changed_by := source
        change_reason := some (change_reason.getD "Updated")
        previous_value := some previous_value })

/-- Default `EPHEMERAL_CONTEXT_TTL_SECONDS` (app/core/config.py). -/
def EPHEMERAL_CONTEXT_TTL_SECONDS : ℚ := 3600

/-- The arguments of `store` (context_memory.py lines 60-92), with the
call-time clock. -/
structure StoreArgs where
  user_id : Nat
  context_type : ContextType
  key : String
  value : Val
  memory_tier : MemoryTier := MemoryTier.short_term
  confidence : ℚ := 1/2
  source : String := "system"
  source_details : Option Val := none
  interpretation : Option Val := none
  session_id : Option String := none
  ttl_seconds : Option ℚ := none
  now : ℚ := 0

/-- `store` (context_memory.py lines 60-153): when an active record exists
for the `(user_id, context_type, key)` triple, delegate to `update`;
otherwise insert a fresh record (with `expires_at` for the ephemeral tier)
and write version 1. -/
def Memory.store (m : Memory) (a : StoreArgs) : Except String Memory :=
  match m.get_by_key a.user_id a.context_type a.key with
  | some existing =>
    m.update existing.id (some a.value) (some a.confidence) a.source
      a.interpretation none a.now
  | none =>
    let expires_at : Option ℚ :=
      if a.memory_tier = MemoryTier.ephemeral then
        some (a.now + a.ttl_seconds.getD EPHEMERAL_CONTEXT_TTL_SECONDS)
      else
        none
    let c : Ctx := {
      id := m.next_id
      user_id := a.user_id
      context_type := a.context_type
      memory_tier := a.memory_tier
      key := a.key
      value := a.value
      interpretation := a.interpretation
      confidence := a.confidence
      source := a.source
      source_details := a.source_details
      drift_status := DriftStatus.stable
      last_confirmed_at := none
      correction_count := 0
      expires_at := expires_at
      is_active := true
      session_id := a.session_id
      created_at := a.now
      updated_at := a.now
      deleted_at := none }
    let m' : Memory :=
      { records := m.records ++ [c], versions := m.versions, next_id := m.next_id + 1 }
    Except.ok (m'.create_version
      { context_id := c.id
        version := 1
        value := a.value
        interpretation := a.interpretation
        confidence := a.confidence
        changed_by := a.source
        change_reason := some "Initial creation"
        previous_value := none })

/-- `confirm` (context_memory.py lines 409-440): load the record (ValueError
when absent) and apply `Context.confirm`. -/
def Memory.confirm (m : Memory) (cid : Nat) (now : ℚ) : Except String Memory :=
  match m.get_by_id cid with
  | none => Except.error "Context not found"
  | some _ => Except.ok (m.put cid fun c => c.confirm now)

/-- `record_correction` (context_memory.py lines 442-497): load the record
(ValueError when absent), replace its value, apply
`Context.record_correction`, then append version `prev + 1` recording the
correction. -/
def Memory.record_correction (m : Memory) (cid : Nat) (new_value : Val)
    (corrected_by : String) (now : ℚ) : Except String Memory :=
  match m.get_by_id cid with
  | none => Except.error "Context not found"
  | some c =>
    let old_value := c.value
    let c' := Ctx.record_correction { c with value := new_value, updated_at := now }
    let m' := m.put cid fun _ => c'
    let current_version := m.latest_version cid
    Except.ok (m'.create_version
      { context_id := c.id
        version := current_version + 1
        value := new_value
        interpretation := c'.interpretation
        confidence := c'.confidence
        changed_by := corrected_by
        change_reason := some "User correction"
        previous_value := some old_value })

/-- `delete` with `soft_delete=True` (context_memory.py lines 308-348): set
`is_active = False` and `deleted_at` on the row. -/
def Memory.delete (m : Memory) (cid : Nat) (now : ℚ) : Memory :=
  m.put cid fun c =>
    { c with is_active := false, deleted_at := some now, updated_at := now }

/-- The memory-service operations a caller can issue (each carries the
clock value `datetime.now` would have returned). -/
inductive MemOp where
  | store (a : StoreArgs)
  | update (cid : Nat) (value : Option Val) (confidence : Option ℚ)
      (source : String) (interpretation : Option Val)
      (change_reason : Option String) (now : ℚ)
  | record_correction (cid : Nat) (new_value : Val) (corrected_by : String)
      (now : ℚ)
  | delete (cid : Nat) (now : ℚ)

/-- Run one operation; a raised ValueError aborts the transaction and leaves
the database unchanged. -/
def Memory.run_op (m : Memory) (op : MemOp) : Memory :=
  match op with
  | MemOp.store a => (m.store a).toOption.getD m
  | MemOp.update cid v conf src interp reason now =>
    (m.update cid v conf src interp reason now).toOption.getD m
  | MemOp.record_correction cid v by_ now =>
    (m.record_correction cid v by_ now).toOption.getD m
  | MemOp.delete cid now => m.delete cid now

/-- Run a sequence of operations from a starting state. -/
def Memory.run (m : Memory) : List MemOp → Memory
  | [] => m
  | op :: ops => (m.run_op op).run ops

/-- Run a sequence of `store` calls from a starting state. -/
def Memory.run_stores (m : Memory) (l : List StoreArgs) : Memory :=
  m.run (l.map MemOp.store)

/-- Two rows clash when both are active records for one
`(user_id, context_type, key)` triple. -/
def clash (a b : Ctx) : Prop :=
  a.is_active = true ∧ b.is_active = true ∧ a.user_id = b.user_id ∧
    a.context_type = b.context_type ∧ a.key = b.key

instance : DecidablePred fun p : Ctx × Ctx => clash p.1 p.2 := by
  intro p
  unfold clash
  infer_instance

/-- Spec invariant 2: at most one active record per
`(user_id, context_type, key)` — no two rows of the table clash. -/
def uniqueActive (m : Memory) : Prop :=
  m.records.Pairwise fun a b => ¬ clash a b

/-- Spec invariant 5: `correction_count ≥ 3` forces
`drift_status = conflicting` on every row. -/
def correctionInv (m : Memory) : Prop :=
  ∀ c ∈ m.records, 3 ≤ c.correction_count →
    c.drift_status = DriftStatus.conflicting

/-- Database well-formedness: primary keys are distinct, the id supply is
fresh, and the active-uniqueness invariant holds. -/
def WF (m : Memory) : Prop :=
  (m.records.map Ctx.id).Nodup ∧
  (∀ c ∈ m.records, c.id < m.next_id) ∧
  uniqueActive m

/-- `b` agrees with `a` on every field `clash` mentions. -/
def sameClashFields (a b : Ctx) : Prop :=
  b.is_active = a.is_active ∧ b.user_id = a.user_id ∧
    b.context_type = a.context_type ∧ b.key = a.key

theorem clash_congr {a a' b b' : Ctx} (ha : sameClashFields a a')
    (hb : sameClashFields b b') (h : clash a' b') : clash a b := by
  obtain ⟨ha1, ha2, ha3, ha4⟩ := ha
  obtain ⟨hb1, hb2, hb3, hb4⟩ := hb
  obtain ⟨h1, h2, h3, h4, h5⟩ := h
  exact ⟨ha1 ▸ h1, hb1 ▸ h2, ha2 ▸ hb2 ▸ h3, ha3 ▸ hb3 ▸ h4, ha4 ▸ hb4 ▸ h5⟩

theorem mem_eq_of_id {l : List Ctx} (hnd : (l.map Ctx.id).Nodup) {a b : Ctx}
    (ha : a ∈ l) (hb : b ∈ l) (h : a.id = b.id) : a = b :=
  List.inj_on_of_nodup_map hnd ha hb h

theorem get_by_id_mem {m : Memory} {cid : Nat} {c : Ctx}
    (h : m.get_by_id cid = some c) : c ∈ m.records :=
  List.mem_of_find?_eq_some h

theorem get_by_id_id {m : Memory} {cid : Nat} {c : Ctx}
    (h : m.get_by_id cid = some c) : c.id = cid := by
  have := List.find?_some h
  simpa using this

theorem get_by_key_mem {m : Memory} {u : Nat} {ty : ContextType} {k : String}
    {c : Ctx} (h : m.get_by_key u ty k = some c) : c ∈ m.records :=
  List.mem_of_find?_eq_some h

theorem get_by_key_props {m : Memory} {u : Nat} {ty : ContextType}
    {k : String} {c : Ctx} (h : m.get_by_key u ty k = some c) :
    c.user_id = u ∧ c.context_type = ty ∧ c.key = k ∧ c.is_active = true := by
  have := List.find?_some h
  simpa using this

theorem get_by_key_none {m : Memory} {u : Nat} {ty : ContextType} {k : String}
    (h : m.get_by_key u ty k = none) :
    ∀ c ∈ m.records,
      ¬ (c.user_id = u ∧ c.context_type = ty ∧ c.key = k ∧
        c.is_active = true) := by
  intro c hc
  have := List.find?_eq_none.mp h c hc
  simpa using this

/-- `put` does not change primary keys when the replacement keeps the id of
the row it overwrites. -/
theorem put_map_id {m : Memory} {cid : Nat} {f : Ctx → Ctx}
    (hf : ∀ r ∈ m.records, r.id = cid → (f r).id = r.id) :
    (m.put cid f).records.map Ctx.id = m.records.map Ctx.id := by
  unfold Memory.put
  rw [List.map_map]
  refine List.map_congr_left fun r hr => ?_
  by_cases h : r.id = cid
  · simp [Function.comp, h, hf r hr h]
  · simp [Function.comp, h]

theorem put_records {m : Memory} {cid : Nat} {f : Ctx → Ctx} :
    (m.put cid f).records =
      m.records.map fun c => if c.id = cid then f c else c := rfl

/-- `uniqueActive` survives a pointwise rewrite of rows that keeps the
fields `clash` mentions. -/
theorem uniqueActive_map {m : Memory} {f : Ctx → Ctx}
    (hu : uniqueActive m)
    (hf : ∀ r ∈ m.records, sameClashFields r (f r)) :
    (m.records.map f).Pairwise fun a b => ¬ clash a b := by
  rw [List.pairwise_map]
  refine List.Pairwise.imp_of_mem ?_ hu
  intro a b ha hb hnab hc
  exact hnab (clash_congr (hf a ha) (hf b hb) hc)

/-- The row `update` writes keeps all fields `clash` mentions. -/
theorem update_sameClashFields (c : Ctx) (value : Option Val)
    (confidence : Option ℚ) (source : String) (interpretation : Option Val)
    (now : ℚ) :
    sameClashFields c { c with
      value := value.getD c.value
      confidence := confidence.getD c.confidence
      interpretation := match interpretation with
        | some i => some i
        | none => c.interpretation
      source := source
      updated_at := now } := by
  exact ⟨rfl, rfl, rfl, rfl⟩

/-- `Context.record_correction` keeps all fields `clash` mentions. -/
theorem record_correction_sameClashFields (c : Ctx) :
    sameClashFields c (Ctx.record_correction c) := by
  unfold Ctx.record_correction
  dsimp only
  split <;> exact ⟨rfl, rfl, rfl, rfl⟩

theorem sameClashFields_refl (c : Ctx) : sameClashFields c c :=
  ⟨rfl, rfl, rfl, rfl⟩

theorem record_correction_id (c : Ctx) :
    (Ctx.record_correction c).id = c.id := by
  unfold Ctx.record_correction
  dsimp only
  split <;> rfl

theorem record_correction_count (c : Ctx) :
    (Ctx.record_correction c).correction_count = c.correction_count + 1 := by
  unfold Ctx.record_correction
  dsimp only
  split <;> rfl

theorem record_correction_drift (c : Ctx) (h3 : 3 ≤ c.correction_count + 1) :
    (Ctx.record_correction c).drift_status = DriftStatus.conflicting := by
  unfold Ctx.record_correction
  dsimp only
  rw [if_pos h3]

/-- The combined invariant carried through every operation sequence. -/
def Inv (m : Memory) : Prop := WF m ∧ correctionInv m

theorem Inv_empty : Inv Memory.empty := by
  refine ⟨⟨List.nodup_nil, ?_, List.Pairwise.nil⟩, ?_⟩ <;>
    simp [Memory.empty, correctionInv]

/-- A `put` whose rewrite touches only the row `get_by_id` found, and keeps
that row's id and clash fields, preserves well-formedness. -/
theorem WF_put {m : Memory} {cid : Nat} {c : Ctx} {f : Ctx → Ctx}
    (hwf : WF m) (hc : m.get_by_id cid = some c)
    (hid : (f c).id = c.id) (hcl : sameClashFields c (f c)) :
    WF (m.put cid f) := by
  obtain ⟨hnd, hbound, hu⟩ := hwf
  have hcid := get_by_id_id hc
  have hcmem := get_by_id_mem hc
  have hpoint : ∀ r ∈ m.records, r.id = cid →
      r = c := fun r hr hrid => mem_eq_of_id hnd hr hcmem (hrid.trans hcid.symm)
  have hids : (m.put cid f).records.map Ctx.id = m.records.map Ctx.id := by
    refine put_map_id fun r hr hrid => ?_
    rw [hpoint r hr hrid]
    exact hid
  refine ⟨?_, ?_, ?_⟩
  · rw [hids]; exact hnd
  · intro r' hr'
    rw [put_records] at hr'
    obtain ⟨r, hr, hEq⟩ := List.mem_map.mp hr'
    by_cases h : r.id = cid
    · have := hpoint r hr h
      subst this
      simp only [if_pos h] at hEq
      have : r'.id = r.id := hEq ▸ (hid.trans rfl)
      rw [this]
      exact hbound r hr
    · simp only [if_neg h] at hEq
      exact hEq ▸ hbound r hr
  · show (m.put cid f).records.Pairwise fun a b => ¬ clash a b
    rw [put_records]
    refine uniqueActive_map hu fun r hr => ?_
    by_cases h : r.id = cid
    · have := hpoint r hr h
      subst this
      simpa [if_pos h] using hcl
    · simpa [if_neg h] using sameClashFields_refl r

/-- A `put` as above also preserves the correction-count invariant when the
rewrite keeps (or establishes) it on the touched row. -/
theorem correctionInv_put {m : Memory} {cid : Nat} {c : Ctx} {f : Ctx → Ctx}
    (hwf : WF m) (hinv : correctionInv m) (hc : m.get_by_id cid = some c)
    (hrow : 3 ≤ (f c).correction_count →
      (f c).drift_status = DriftStatus.conflicting) :
    correctionInv (m.put cid f) := by
  obtain ⟨hnd, _, _⟩ := hwf
  have hcid := get_by_id_id hc
  have hcmem := get_by_id_mem hc
  intro r' hr' h3
  rw [put_records] at hr'
  obtain ⟨r, hr, hEq⟩ := List.mem_map.mp hr'
  by_cases h : r.id = cid
  · have : r = c := mem_eq_of_id hnd hr hcmem (h.trans hcid.symm)
    subst this
    simp only [if_pos h] at hEq
    exact hEq ▸ hrow (hEq ▸ h3)
  · simp only [if_neg h] at hEq
    exact hEq ▸ hinv r hr (hEq ▸ h3)

theorem create_version_records (m : Memory) (v : Version) :
    (m.create_version v).records = m.records := rfl

theorem create_version_next_id (m : Memory) (v : Version) :
    (m.create_version v).next_id = m.next_id := rfl

theorem Inv_create_version {m : Memory} (h : Inv m) (v : Version) :
    Inv (m.create_version v) := by
  obtain ⟨⟨h1, h2, h3⟩, h4⟩ := h
  exact ⟨⟨h1, h2, h3⟩, h4⟩

theorem Inv_update {m : Memory} (h : Inv m) (cid : Nat) (v : Option Val)
    (conf : Option ℚ) (src : String) (interp : Option Val)
    (reason : Option String) (now : ℚ) :
    Inv ((m.update cid v conf src interp reason now).toOption.getD m) := by
  unfold Memory.update
  cases hfind : m.get_by_id cid with
  | none => simpa [hfind] using h
  | some c =>
    simp only [hfind, Except.toOption, Option.getD]
    refine Inv_create_version ⟨?_, ?_⟩ _
    · exact WF_put h.1 hfind rfl
        (update_sameClashFields c v conf src interp now)
    · exact correctionInv_put h.1 h.2 hfind fun h3 => h.2 c
        (get_by_id_mem hfind) h3

theorem Inv_record_correction {m : Memory} (h : Inv m) (cid : Nat) (nv : Val)
    (by_ : String) (now : ℚ) :
    Inv ((m.record_correction cid nv by_ now).toOption.getD m) := by
  unfold Memory.record_correction
  cases hfind : m.get_by_id cid with
  | none => simpa [hfind] using h
  | some c =>
    simp only [hfind, Except.toOption, Option.getD]
    refine Inv_create_version ⟨?_, ?_⟩ _
    · refine WF_put h.1 hfind
        (record_correction_id { c with value := nv, updated_at := now }) ?_
      have h1 :=
        record_correction_sameClashFields { c with value := nv, updated_at := now }
      exact ⟨h1.1, h1.2.1, h1.2.2.1, h1.2.2.2⟩
    · refine correctionInv_put h.1 h.2 hfind fun h3 => ?_
      rw [record_correction_count] at h3
      exact record_correction_drift _ h3

/-- The row rewrite `delete` performs. -/
def deleteRow (now : ℚ) (c : Ctx) : Ctx :=
  { c with is_active := false, deleted_at := some now, updated_at := now }

theorem delete_records (m : Memory) (cid : Nat) (now : ℚ) :
    (m.delete cid now).records =
      m.records.map fun c => if c.id = cid then deleteRow now c else c := rfl

theorem Inv_delete {m : Memory} (h : Inv m) (cid : Nat) (now : ℚ) :
    Inv (m.delete cid now) := by
  obtain ⟨⟨hnd, hbound, hu⟩, hinv⟩ := h
  refine ⟨⟨?_, ?_, ?_⟩, ?_⟩
  · rw [delete_records, List.map_map]
    have : (Ctx.id ∘ fun c => if c.id = cid then deleteRow now c else c) =
        Ctx.id := by
      funext r
      by_cases hr : r.id = cid <;> simp [Function.comp, deleteRow, hr]
    rw [this]
    exact hnd
  · intro r' hr'
    rw [delete_records] at hr'
    obtain ⟨r, hr, hEq⟩ := List.mem_map.mp hr'
    have : r'.id = r.id := by
      subst hEq
      by_cases hr2 : r.id = cid <;> simp [deleteRow, hr2]
    rw [this]
    exact hbound r hr
  · show (m.delete cid now).records.Pairwise fun a b => ¬ clash a b
    rw [delete_records, List.pairwise_map]
    refine hu.imp ?_
    intro a b hnab hcl
    refine hnab ?_
    obtain ⟨h1, h2, h3, h4, h5⟩ := hcl
    by_cases ha : a.id = cid
    · rw [if_pos ha] at h1
      exact absurd h1 (by simp [deleteRow])
    · rw [if_neg ha] at h1 h3 h4 h5
      by_cases hb : b.id = cid
      · rw [if_pos hb] at h2
        exact absurd h2 (by simp [deleteRow])
      · rw [if_neg hb] at h2 h3 h4 h5
        exact ⟨h1, h2, h3, h4, h5⟩
  · intro r' hr' h3
    rw [delete_records] at hr'
    obtain ⟨r, hr, hEq⟩ := List.mem_map.mp hr'
    by_cases hid : r.id = cid
    · rw [if_pos hid] at hEq
      subst hEq
      exact hinv r hr h3
    · rw [if_neg hid] at hEq
      subst hEq
      exact hinv r hr h3

theorem Inv_store {m : Memory} (h : Inv m) (a : StoreArgs) :
    Inv ((m.store a).toOption.getD m) := by
  unfold Memory.store
  cases hfind : m.get_by_key a.user_id a.context_type a.key with
  | some existing =>
    simpa using Inv_update h existing.id (some a.value) (some a.confidence)
      a.source a.interpretation none a.now
  | none =>
    obtain ⟨⟨hnd, hbound, hu⟩, hinv⟩ := h
    simp only [Except.toOption, Option.getD]
    refine Inv_create_version ⟨⟨?_, ?_, ?_⟩, ?_⟩ _
    · rw [List.map_append]
      rw [List.nodup_append]
      refine ⟨hnd, List.nodup_singleton _, ?_⟩
      intro x hx hx'
      simp only [List.map_cons, List.map_nil, List.mem_singleton] at hx'
      obtain ⟨r, hr, hEq⟩ := List.mem_map.mp hx
      subst hx'
      have := hbound r hr
      omega
    · intro r hr
      rcases List.mem_append.mp hr with hr | hr
      · exact Nat.lt_succ_of_lt (hbound r hr)
      · simp only [List.mem_singleton] at hr
        subst hr
        exact Nat.lt_succ_self _
    · unfold uniqueActive
      dsimp only
      rw [List.pairwise_append]
      refine ⟨hu, List.pairwise_singleton _ _, ?_⟩
      intro x hx y hy hcl
      simp only [List.mem_singleton] at hy
      subst hy
      obtain ⟨h1, _, h3, h4, h5⟩ := hcl
      exact get_by_key_none hfind x hx ⟨h3, h4, h5, h1⟩
    · intro r hr h3
      rcases List.mem_append.mp hr with hr | hr
      · exact hinv r hr h3
      · simp only [List.mem_singleton] at hr
        subst hr
        simp at h3

theorem Inv_run_op {m : Memory} (h : Inv m) (op : MemOp) :
    Inv (m.run_op op) := by
  cases op with
  | store a => exact Inv_store h a
  | update cid v conf src interp reason now =>
    exact Inv_update h cid v conf src interp reason now
  | record_correction cid nv by_ now =>
    exact Inv_record_correction h cid nv by_ now
  | delete cid now => exact Inv_delete h cid now

theorem Inv_run {m : Memory} (h : Inv m) (ops : List MemOp) :
    Inv (m.run ops) := by
  induction ops generalizing m with
  | nil => exact h
  | cons op ops ih => exact ih (Inv_run_op h op)

/-- Fields `store`-on-existing (via `update`) leaves untouched: everything
except `value`, `confidence`, `interpretation`, `source` and `updated_at`. -/
def updateFrame (r r' : Ctx) : Prop :=
  r'.id = r.id ∧ r'.user_id = r.user_id ∧ r'.context_type = r.context_type ∧
    r'.memory_tier = r.memory_tier ∧ r'.key = r.key ∧
    r'.source_details = r.source_details ∧ r'.drift_status = r.drift_status ∧
    r'.last_confirmed_at = r.last_confirmed_at ∧
    r'.correction_count = r.correction_count ∧ r'.expires_at = r.expires_at ∧
    r'.is_active = r.is_active ∧ r'.session_id = r.session_id ∧
    r'.created_at = r.created_at ∧ r'.deleted_at = r.deleted_at

theorem updateFrame_refl (r : Ctx) : updateFrame r r := by
  unfold updateFrame
  exact ⟨rfl, rfl, rfl, rfl, rfl, rfl, rfl, rfl, rfl, rfl, rfl, rfl, rfl, rfl⟩

/-- Helper: a `store` on a triple with no active record appends exactly one
fresh active record and one version row numbered 1. -/
theorem store_fresh_shape (s : Memory) (a : StoreArgs)
    (h : s.get_by_key a.user_id a.context_type a.key = none) :
    ∃ m', s.store a = Except.ok m' ∧
      (∃ c ∈ m'.records, c.id = s.next_id ∧ c.user_id = a.user_id ∧
        c.context_type = a.context_type ∧ c.key = a.key ∧
        c.is_active = true ∧ c.correction_count = 0) ∧
      m'.versions = s.versions ++
        [{ context_id := s.next_id, version := 1, value := a.value,
           interpretation := a.interpretation, confidence := a.confidence,
           changed_by := a.source, change_reason := some "Initial creation",
           previous_value := none }] := by
  unfold Memory.store
  rw [h]
  refine ⟨_, rfl, ?_, rfl⟩
  refine ⟨_, List.mem_append.mpr (Or.inr (List.mem_singleton.mpr rfl)),
    rfl, rfl, rfl, rfl, rfl, rfl⟩

/-- C2: after any sequence of Store operations, at most one active record
exists per `(userId, type, key)`: Store delegates to Update when an active
record already exists, and otherwise inserts a fresh record together with
an initial version numbered 1, so a repeated Store for the same triple
never creates a second active record. -/
theorem store_at_most_one_active (ops : List StoreArgs) :
    uniqueActive (Memory.empty.run_stores ops) ∧
    ∀ a : StoreArgs,
      (Memory.empty.run_stores ops).get_by_key a.user_id a.context_type
        a.key = none →
      ∃ m', (Memory.empty.run_stores ops).store a = Except.ok m' ∧
        (∃ c ∈ m'.records, c.id = (Memory.empty.run_stores ops).next_id ∧
          c.user_id = a.user_id ∧ c.context_type = a.context_type ∧
          c.key = a.key ∧ c.is_active = true ∧ c.correction_count = 0) ∧
        m'.versions = (Memory.empty.run_stores ops).versions ++
          [{ context_id := (Memory.empty.run_stores ops).next_id, version := 1,
             value := a.value, interpretation := a.interpretation,
             confidence := a.confidence, changed_by := a.source,
             change_reason := some "Initial creation",
             previous_value := none }] :=
  ⟨(Inv_run Inv_empty (ops.map MemOp.store)).1.2.2,
    fun a h => store_fresh_shape _ a h⟩

/-- Concrete arguments used by the C2 witness. -/
def c2args : StoreArgs :=
  { user_id := 1, context_type := ContextType.temporal, key := "timezone",
    value := "UTC", confidence := 9/10, source := "user", now := 5 }

/-- Witness for C2 at the empty store and a concrete Store call. -/
theorem store_at_most_one_active_witness :
    uniqueActive (Memory.empty.run_stores []) ∧
    ∃ m', (Memory.empty.run_stores []).store c2args = Except.ok m' ∧
      (∃ c ∈ m'.records, c.id = (Memory.empty.run_stores []).next_id ∧
        c.user_id = c2args.user_id ∧ c.context_type = c2args.context_type ∧
        c.key = c2args.key ∧ c.is_active = true ∧ c.correction_count = 0) ∧
      m'.versions = (Memory.empty.run_stores []).versions ++
        [{ context_id := (Memory.empty.run_stores []).next_id, version := 1,
           value := c2args.value, interpretation := c2args.interpretation,
           confidence := c2args.confidence, changed_by := c2args.source,
           change_reason := some "Initial creation",
           previous_value := none }] :=
  ⟨(store_at_most_one_active []).1,
    (store_at_most_one_active []).2 c2args rfl⟩

/-- C3 (amended): the invariant `correctionCount ≥ 3 ⇒ driftStatus =
conflicting` holds after any sequence of Store, Update, RecordCorrection
and Delete operations (Confirm is the exception: it resets driftStatus to
stable unconditionally). -/
theorem correction_inv_after_ops (ops : List MemOp) :
    correctionInv (Memory.empty.run ops) :=
  (Inv_run Inv_empty ops).2

/-- Store call used to seed the C3 counterexample state. -/
def c3store : StoreArgs :=
  { user_id := 1, context_type := ContextType.spatial, key := "location",
    value := "San Francisco", confidence := 9/10, source := "inference",
    now := 0 }

/-- State with one record corrected three times (correctionCount = 3,
driftStatus = conflicting). -/
def c3mem : Memory :=
  Memory.empty.run
    [MemOp.store c3store,
     MemOp.record_correction 0 "New York" "user" 1,
     MemOp.record_correction 0 "Los Angeles" "user" 2,
     MemOp.record_correction 0 "San Diego" "user" 3]

/-- The C3 state after a Confirm on the thrice-corrected record. -/
def c3after : Memory := (c3mem.confirm 0 4).toOption.getD c3mem

/-- Counterexample to C3 as stated: Confirm on a record with
correctionCount = 3 leaves correctionCount at 3 but resets driftStatus to
stable, so the invariant fails after this operation sequence. -/
theorem confirm_breaks_correction_inv :
    (c3after.get_by_id 0).map Ctx.correction_count = some 3 ∧
    (c3after.get_by_id 0).map Ctx.drift_status = some DriftStatus.stable ∧
    ¬ correctionInv c3after := by
  have h1 : (c3after.get_by_id 0).map Ctx.correction_count = some 3 := by
    norm_num [c3after, c3mem, c3store, Memory.run, Memory.run_op, Memory.store,
      Memory.get_by_key, Memory.get_by_id, Memory.update, Memory.confirm,
      Memory.record_correction, Memory.put, Memory.create_version,
      Memory.latest_version, Memory.empty, Ctx.record_correction, Ctx.confirm,
      Except.toOption, List.find?, List.filter]
  have h2 : (c3after.get_by_id 0).map Ctx.drift_status =
      some DriftStatus.stable := by
    norm_num [c3after, c3mem, c3store, Memory.run, Memory.run_op, Memory.store,
      Memory.get_by_key, Memory.get_by_id, Memory.update, Memory.confirm,
      Memory.record_correction, Memory.put, Memory.create_version,
      Memory.latest_version, Memory.empty, Ctx.record_correction, Ctx.confirm,
      Except.toOption, List.find?, List.filter]
  refine ⟨h1, h2, fun h => ?_⟩
  cases hfind : c3after.get_by_id 0 with
  | none => rw [hfind] at h1; exact Option.noConfusion h1
  | some c =>
    rw [hfind] at h1 h2
    have hcc : c.correction_count = 3 := by simpa using h1
    have hst : c.drift_status = DriftStatus.stable := by simpa using h2
    have := h c (get_by_id_mem hfind) (by omega)
    rw [hst] at this
    exact DriftStatus.noConfusion this

/-- Store call used to seed the C4 scenario (confidence 0.9, stable). -/
def c4store : StoreArgs :=
  { user_id := 2, context_type := ContextType.situational, key := "preference",
    value := "v0", confidence := 9/10, source := "system", now := 0 }

/-- The C4 state after three RecordCorrection calls on a record that
started with confidence 0.9 and driftStatus stable. -/
def c4mem : Memory :=
  Memory.empty.run
    [MemOp.store c4store,
     MemOp.record_correction 0 "v1" "user" 1,
     MemOp.record_correction 0 "v2" "user" 2,
     MemOp.record_correction 0 "v3" "user" 3]

/-- Counterexample to C4 as stated: after the third correction the
confidence is exactly 0.3 (0.9 lowered by 0.2 three times), not strictly
below 0.3, although correctionCount = 3 and driftStatus = conflicting do
hold. -/
theorem three_corrections_confidence_not_below :
    (c4mem.get_by_id 0).map Ctx.correction_count = some 3 ∧
    (c4mem.get_by_id 0).map Ctx.drift_status = some DriftStatus.conflicting ∧
    (c4mem.get_by_id 0).map Ctx.confidence = some (3/10) ∧
    ¬ (3/10 : ℚ) < 3/10 := by
  refine ⟨?_, ?_, ?_, by norm_num⟩ <;>
    norm_num [c4mem, c4store, Memory.run, Memory.run_op, Memory.store,
      Memory.get_by_key, Memory.get_by_id, Memory.update,
      Memory.record_correction, Memory.put, Memory.create_version,
      Memory.latest_version, Memory.empty, Ctx.record_correction,
      Except.toOption, List.find?, List.filter]

/-- C10: when Store hits an existing active record it delegates to Update,
so the `memory_tier`, `ttl_seconds`, `source_details` and `session_id`
arguments are silently ignored: no record is added, and every record keeps
every field other than value, confidence, interpretation, source and
updated_at — in particular an ephemeral-tier Store over an existing
non-ephemeral record never sets an expiry. -/
theorem store_existing_frame (m : Memory) (a : StoreArgs) (ex : Ctx)
    (hnd : (m.records.map Ctx.id).Nodup)
    (hex : m.get_by_key a.user_id a.context_type a.key = some ex) :
    ∃ m', m.store a = Except.ok m' ∧ m'.next_id = m.next_id ∧
      List.Forall₂ updateFrame m.records m'.records := by
  have hexmem := get_by_key_mem hex
  have hsome : (m.get_by_id ex.id).isSome := by
    unfold Memory.get_by_id
    rw [List.find?_isSome]
    exact ⟨ex, hexmem, by simp⟩
  obtain ⟨c, hc⟩ := Option.isSome_iff_exists.mp hsome
  unfold Memory.store Memory.update
  rw [hex]
  dsimp only
  rw [hc]
  dsimp only
  refine ⟨_, rfl, rfl, ?_⟩
  show List.Forall₂ updateFrame m.records ((m.put ex.id _).records)
  rw [put_records]
  rw [List.forall₂_map_right_iff]
  rw [List.forall₂_same]
  intro r hr
  by_cases h : r.id = ex.id
  · have hcid := get_by_id_id hc
    have : r = c := mem_eq_of_id hnd hr (get_by_id_mem hc) (h.trans hcid.symm)
    subst this
    rw [if_pos h]
    exact ⟨rfl, rfl, rfl, rfl, rfl, rfl, rfl, rfl, rfl, rfl, rfl, rfl, rfl, rfl⟩
  · rw [if_neg h]
    exact updateFrame_refl r

/-- First Store call seeding the C10 witness state. -/
def c10a : StoreArgs :=
  { user_id := 3, context_type := ContextType.spatial, key := "location",
    value := "SF", now := 0 }

/-- The C10 witness state: one short-term record without expiry. -/
def c10mem : Memory := Memory.empty.run_stores [c10a]

/-- The record `c10mem` holds, spelled out. -/
def c10ex : Ctx :=
  { id := 0, user_id := 3, context_type := ContextType.spatial,
    memory_tier := MemoryTier.short_term, key := "location", value := "SF",
    interpretation := none, confidence := 1/2, source := "system",
    source_details := none, drift_status := DriftStatus.stable,
    last_confirmed_at := none, correction_count := 0, expires_at := none,
    is_active := true, session_id := none, created_at := 0, updated_at := 0,
    deleted_at := none }

/-- Second Store call for the C10 witness: same triple, but ephemeral tier,
a TTL, source details and a session id — all to be ignored. -/
def c10b : StoreArgs :=
  { user_id := 3, context_type := ContextType.spatial, key := "location",
    value := "NY", memory_tier := MemoryTier.ephemeral, confidence := 8/10,
    source := "api", source_details := some "details",
    session_id := some "sess-1", ttl_seconds := some 60, now := 100 }

/-- Witness for C10: the concrete second Store leaves the stored record's
tier, expiry, source details and session id untouched. -/
theorem store_existing_frame_witness :
    ∃ m', c10mem.store c10b = Except.ok m' ∧ m'.next_id = c10mem.next_id ∧
      List.Forall₂ updateFrame c10mem.records m'.records := by
  refine store_existing_frame c10mem c10b c10ex ?_ ?_
  · norm_num [c10mem, c10a, Memory.run_stores, Memory.run, Memory.run_op,
      Memory.store, Memory.get_by_key, Memory.put, Memory.create_version,
      Memory.empty, Except.toOption, List.find?]
  · norm_num [c10mem, c10a, c10b, c10ex, Memory.run_stores, Memory.run,
      Memory.run_op, Memory.store, Memory.get_by_key, Memory.put,
      Memory.create_version, Memory.empty, Except.toOption, List.find?]
    intro h
    exact MemoryTier.noConfusion h

/-- C4 (amended): starting from confidence 0.9 and driftStatus stable,
three RecordCorrection calls leave the record with correctionCount = 3,
driftStatus = conflicting, and confidence exactly 0.3 (each correction
lowers confidence by 0.2, clamped at 0). -/
theorem three_corrections_result :
    ((Memory.empty.run [MemOp.store c4store]).get_by_id 0).map Ctx.confidence
      = some (9/10) ∧
    ((Memory.empty.run [MemOp.store c4store]).get_by_id 0).map Ctx.drift_status
      = some DriftStatus.stable ∧
    (c4mem.get_by_id 0).map Ctx.correction_count = some 3 ∧
    (c4mem.get_by_id 0).map Ctx.drift_status = some DriftStatus.conflicting ∧
    (c4mem.get_by_id 0).map Ctx.confidence = some (3/10) := by
  refine ⟨?_, ?_, ?_, ?_, ?_⟩ <;>
    norm_num [c4mem, c4store, Memory.run, Memory.run_op, Memory.store,
      Memory.get_by_key, Memory.get_by_id, Memory.update,
      Memory.record_correction, Memory.put, Memory.create_version,
      Memory.latest_version, Memory.empty, Ctx.record_correction,
      Except.toOption, List.find?, List.filter]

/-! Temporal engine (app/engines/temporal.py).  A timezone-local instant is
modelled as a count of seconds (ℤ); `datetime.date()` becomes the floor day
number, and the calendar conversions `strftime` needs use the standard
civil-calendar algorithms.  Zone conversion uses a fixed offset per zone
(the claims involve no DST transition), so the difference of two instants
is the same before and after `astimezone`. -/

/-- `datetime.date()`: the civil day number of a local instant. -/
def localDay (t : ℤ) : ℤ := t.ediv 86400

/-- Seconds since local midnight. -/
def localSecs (t : ℤ) : ℕ := (t.emod 86400).toNat

/-- `datetime.hour`. -/
def localHour (t : ℤ) : ℕ := localSecs t / 3600

/-- `datetime.minute`. -/
def localMinute (t : ℤ) : ℕ := localSecs t % 3600 / 60

/-- Civil date (year, month, day) of a day number (days since 1970-01-01),
by the standard civil-from-days algorithm. -/
def civilFromDays (z : ℤ) : ℤ × ℕ × ℕ :=
  let z := z + 719468
  let era : ℤ := z.ediv 146097
  let doe : ℕ := (z - era * 146097).toNat
  let yoe : ℕ := (doe - doe / 1460 + doe / 36524 - doe / 146096) / 365
  let y : ℤ := (yoe : ℤ) + era * 400
  let doy : ℕ := doe - (365 * yoe + yoe / 4 - yoe / 100)
  let mp : ℕ := (5 * doy + 2) / 153
  let d : ℕ := doy - (153 * mp + 2) / 5 + 1
  let m : ℕ := if mp < 10 then mp + 3 else mp - 9
  (if m ≤ 2 then y + 1 else y, m, d)

/-- Day number of a civil date, by the standard days-from-civil algorithm. -/
def daysFromCivil (y : ℤ) (m d : ℕ) : ℤ :=
  let y' : ℤ := if m ≤ 2 then y - 1 else y
  let era : ℤ := y'.ediv 400
  let yoe : ℕ := (y' - era * 400).toNat
  let mp : ℕ := if 2 < m then m - 3 else m + 9
  let doy : ℕ := (153 * mp + 2) / 5 + d - 1
  let doe : ℕ := yoe * 365 + yoe / 4 - yoe / 100 + doy
  era * 146097 + (doe : ℤ) - 719468

/-- Zero-padded two-digit rendering (`%H`, `%M`, `%d`). -/
def pad2 (n : ℕ) : String :=
  if n < 10 then "0" ++ toString n else toString n

/-- `%B`: full month name. -/
def monthName : ℕ → String
  | 1 => "January"
  | 2 => "February"
  | 3 => "March"
  | 4 => "April"
  | 5 => "May"
  | 6 => "June"
  | 7 => "July"
  | 8 => "August"
  | 9 => "September"
  | 10 => "October"
  | 11 => "November"
  | 12 => "December"
  | _ => ""

/-- `%A`: full weekday name, from the Python weekday index (Monday = 0). -/
def weekdayName : ℕ → String
  | 0 => "Monday"
  | 1 => "Tuesday"
  | 2 => "Wednesday"
  | 3 => "Thursday"
  | 4 => "Friday"
  | 5 => "Saturday"
  | 6 => "Sunday"
  | _ => ""

/-- `datetime.weekday()` of a day number (1970-01-01 was a Thursday). -/
def pyWeekday (z : ℤ) : ℕ := ((z + 3).emod 7).toNat

/-- `strftime("%H:%M")` of a local instant. -/
def fmtHM (t : ℤ) : String := pad2 (localHour t) ++ ":" ++ pad2 (localMinute t)

/-- `strftime("%B %d")` of a day number. -/
def fmtBd (z : ℤ) : String :=
  let c := civilFromDays z
  monthName c.2.1 ++ " " ++ pad2 c.2.2

/-- `strftime("%A, %B %d")` of a day number. -/
def fmtABd (z : ℤ) : String := weekdayName (pyWeekday z) ++ ", " ++ fmtBd z

/-- `MidnightCrossoverContext` (app/schemas/temporal.py), dates as day
numbers. -/
structure MidnightCrossoverContext where
  session_started_date : ℤ
  current_date : ℤ
  has_crossed_midnight : Bool
  today_interpretation : String
  today_date : ℤ
  yesterday_interpretation : String
  yesterday_date : ℤ
  confidence : ℚ
  reasoning : String
deriving DecidableEq, Repr

/-- The reasoning string of the early-morning branch of
`handle_midnight_crossover` (temporal.py lines 340-345). -/
def earlyReasoning (session_start current_time : ℤ) : String :=
  "Session started at " ++ fmtHM session_start ++ " " ++
    "and current time is " ++ fmtHM current_time ++ ". " ++
    "Since it's early morning and the session is recent, " ++
    "'today' likely refers to " ++ fmtBd (localDay session_start) ++ "."

/-- The reasoning string of the calendar-day branch of
`handle_midnight_crossover` (temporal.py lines 350-353). -/
def calendarReasoning (current_time : ℤ) : String :=
  "Session has crossed midnight. Using calendar day interpretation. " ++
    "'Today' refers to " ++ fmtBd (localDay current_time) ++ "."

/-- `handle_midnight_crossover` (temporal.py lines 289-365).  Arguments are
the session start and current instants in the user's zone (local seconds);
`hours_in_session` is computed from the instants themselves, which for a
fixed-offset zone equals the local-seconds difference. -/
def handle_midnight_crossover (session_start current_time : ℤ) :
    MidnightCrossoverContext :=
  let session_date := localDay session_start
  let current_date := localDay current_time
  if session_date = current_date then
    { session_started_date := session_date
      current_date := current_date
      has_crossed_midnight := false
      today_interpretation := "the current calendar day"
      today_date := current_date
      yesterday_interpretation := "the previous calendar day"
      yesterday_date := current_date - 1
      confidence := 19/20
      reasoning :=
        "Session has not crossed midnight, standard interpretation applies." }
  else
    let hours_since_midnight : ℚ :=
      (localHour current_time : ℚ) + (localMinute current_time : ℚ) / 60
    let hours_in_session : ℚ := ((current_time - session_start : ℤ) : ℚ) / 3600
    let today_date := if hours_since_midnight < 4 ∧ hours_in_session < 6 then
      session_date else current_date
    let confidence : ℚ := if hours_since_midnight < 4 ∧ hours_in_session < 6 then
      7/10 else 17/20
    let reasoning := if hours_since_midnight < 4 ∧ hours_in_session < 6 then
      earlyReasoning session_start current_time
    else
      calendarReasoning current_time
    { session_started_date := session_date
      current_date := current_date
      has_crossed_midnight := true
      today_interpretation := "refers to " ++ fmtABd today_date
      today_date := today_date
      yesterday_interpretation := "refers to " ++ fmtABd (today_date - 1)
      yesterday_date := today_date - 1
      confidence := confidence
      reasoning := reasoning }

theorem localMinute_lt (t : ℤ) : localMinute t < 60 := by
  unfold localMinute
  have h : localSecs t % 3600 < 3600 := Nat.mod_lt _ (by norm_num)
  omega

/-- The source's branch test `hour + minute/60 < 4` is equivalent to the
claim's `hour < 4`. -/
theorem hours_since_midnight_lt_iff (t : ℤ) :
    ((localHour t : ℚ) + (localMinute t : ℚ) / 60 < 4) ↔ localHour t < 4 := by
  constructor
  · intro h
    by_contra h4
    push_neg at h4
    have h4q : (4 : ℚ) ≤ (localHour t : ℚ) := by exact_mod_cast h4
    have hm : (0 : ℚ) ≤ (localMinute t : ℚ) / 60 := by positivity
    linarith
  · intro h
    have h3 : (localHour t : ℚ) ≤ 3 := by exact_mod_cast Nat.lt_succ_iff.mp h
    have hm : (localMinute t : ℚ) ≤ 59 := by
      exact_mod_cast Nat.lt_succ_iff.mp (localMinute_lt t)
    linarith

/-- The source's `hours_in_session < 6` is equivalent to the claim's
`elapsed < 6 h` (21600 s). -/
theorem hours_in_session_lt_iff (s t : ℤ) :
    (((t - s : ℤ) : ℚ) / 3600 < 6) ↔ t - s < 21600 := by
  rw [div_lt_iff₀ (by norm_num : (0:ℚ) < 3600)]
  constructor
  · intro h
    exact_mod_cast (by linarith : ((t - s : ℤ) : ℚ) < 21600)
  · intro h
    have : ((t - s : ℤ) : ℚ) < 21600 := by exact_mod_cast h
    linarith

theorem earlyReasoning_ne_empty (s t : ℤ) : earlyReasoning s t ≠ "" := by
  intro h
  have hlen := congrArg String.length h
  simp only [earlyReasoning, String.length_append] at hlen
  have h19 : ("Session started at ").length = 19 := by decide
  have h0 : ("" : String).length = 0 := by decide
  rw [h19, h0] at hlen
  omega

theorem calendarReasoning_ne_empty (t : ℤ) : calendarReasoning t ≠ "" := by
  intro h
  have hlen := congrArg String.length h
  simp only [calendarReasoning, String.length_append] at hlen
  have h65 :
      ("Session has crossed midnight. Using calendar day interpretation. "
        ).length = 65 := by decide
  have h0 : ("" : String).length = 0 := by decide
  rw [h65, h0] at hlen
  omega

/-- The two branch reasonings are distinguishable: they differ at the ninth
character. -/
theorem earlyReasoning_ne_calendarReasoning (s t u : ℤ) :
    earlyReasoning s t ≠ calendarReasoning u := by
  intro h
  have hd := congrArg (fun x => x.data[8]?) h
  simp only [earlyReasoning, calendarReasoning, String.data_append,
    List.append_assoc] at hd
  rw [List.getElem?_append_left (by decide),
    List.getElem?_append_left (by decide)] at hd
  exact absurd hd (by decide)

/-- C5: once the session has crossed midnight (start and current local
dates differ), the handler interprets "today" as the session start date
with confidence 0.7 exactly when the current local hour is before 4 and
fewer than 6 hours have elapsed since session start, and otherwise as the
current calendar date with confidence 0.85; in both branches the reasoning
is non-empty and identifies the branch taken. -/
theorem midnight_crossover_policy (s t : ℤ)
    (hcross : localDay s ≠ localDay t) :
    (handle_midnight_crossover s t).has_crossed_midnight = true ∧
    (handle_midnight_crossover s t).session_started_date = localDay s ∧
    (handle_midnight_crossover s t).current_date = localDay t ∧
    ((localHour t < 4 ∧ t - s < 21600) →
      (handle_midnight_crossover s t).today_date = localDay s ∧
      (handle_midnight_crossover s t).confidence = 7/10 ∧
      (handle_midnight_crossover s t).reasoning = earlyReasoning s t) ∧
    (¬ (localHour t < 4 ∧ t - s < 21600) →
      (handle_midnight_crossover s t).today_date = localDay t ∧
      (handle_midnight_crossover s t).confidence = 17/20 ∧
      (handle_midnight_crossover s t).reasoning = calendarReasoning t) ∧
    (handle_midnight_crossover s t).reasoning ≠ "" ∧
    earlyReasoning s t ≠ calendarReasoning t := by
  have hbranch : ((localHour t : ℚ) + (localMinute t : ℚ) / 60 < 4 ∧
      ((t - s : ℤ) : ℚ) / 3600 < 6) ↔ (localHour t < 4 ∧ t - s < 21600) := by
    rw [hours_since_midnight_lt_iff, hours_in_session_lt_iff]
  unfold handle_midnight_crossover
  rw [if_neg hcross]
  dsimp only
  by_cases hb : localHour t < 4 ∧ t - s < 21600
  · rw [if_pos (hbranch.mpr hb), if_pos (hbranch.mpr hb),
      if_pos (hbranch.mpr hb)]
    exact ⟨rfl, rfl, rfl, fun _ => ⟨rfl, rfl, rfl⟩,
      fun hn => absurd hb hn, earlyReasoning_ne_empty s t,
      earlyReasoning_ne_calendarReasoning s t t⟩
  · rw [if_neg (fun hq => hb (hbranch.mp hq)),
      if_neg (fun hq => hb (hbranch.mp hq)),
      if_neg (fun hq => hb (hbranch.mp hq))]
    exact ⟨rfl, rfl, rfl, fun hy => absurd hy hb,
      fun _ => ⟨rfl, rfl, rfl⟩, calendarReasoning_ne_empty t,
      earlyReasoning_ne_calendarReasoning s t t⟩

/-! Drift detector (app/engines/drift.py). -/

/-- `DriftType` (drift.py lines 21-27). -/
inductive DriftType where
  | staleness
  | conflict
  | correction_pattern
  | behavioral_mismatch
deriving DecidableEq, Repr

/-- `DriftSignal` (drift.py lines 30-40); `detected_at` is the clock value
`datetime.now` returns. -/
structure DriftSignal where
  drift_type : DriftType
  context_id : Nat
  context_key : String
  severity : ℚ
  description : String
  detected_at : ℚ
  recommended_action : String
deriving DecidableEq, Repr

/-- `LOW_CONFIDENCE_THRESHOLD` (drift.py line 74). -/
def LOW_CONFIDENCE_THRESHOLD : ℚ := 2/5

/-- `CRITICAL_CONFIDENCE_THRESHOLD` (drift.py line 75). -/
def CRITICAL_CONFIDENCE_THRESHOLD : ℚ := 1/5

/-- Two-decimal rendering standing in for Python's `f"{x:.2f}"` (the claims
never inspect the description text; ties are rounded to even as in float
formatting). -/
def fmt2 (q : ℚ) : String :=
  let scaled := q * 100
  let fl : ℤ := ⌊scaled⌋
  let frac := scaled - fl
  let n : ℤ :=
    if 1/2 < frac then fl + 1
    else if frac < 1/2 then fl
    else if fl % 2 = 0 then fl else fl + 1
  let sign := if n < 0 then "-" else ""
  let a := n.natAbs
  sign ++ toString (a / 100) ++ "." ++ pad2 (a % 100)

/-- `_check_confidence` (drift.py lines 329-345): below the low threshold a
signal is emitted — typed STALENESS ("Low confidence often means
staleness"), severity `1 - confidence/threshold`, and action "refresh" only
below the critical threshold. -/
def check_confidence (c : Ctx) (now : ℚ) : Option DriftSignal :=
  if LOW_CONFIDENCE_THRESHOLD ≤ c.confidence then
    none
  else
    some
      { drift_type := DriftType.staleness
        context_id := c.id
        context_key := c.key
        severity := 1 - c.confidence / LOW_CONFIDENCE_THRESHOLD
        description := "Confidence is low (" ++ fmt2 c.confidence ++ ")"
        detected_at := now
        recommended_action :=
          if c.confidence < CRITICAL_CONFIDENCE_THRESHOLD then "refresh"
          else "monitor" }

/-- C9 (amended): for every record whose confidence is below the low
threshold 0.4, the confidence check emits a signal — of kind STALENESS, not
BEHAVIORAL_MISMATCH — whose recommendedAction is elevated to "refresh"
exactly when confidence is below the critical threshold 0.2, and is
"monitor" otherwise; severity is `1 - confidence/0.4`. -/
theorem check_confidence_signal (c : Ctx) (now : ℚ)
    (h : c.confidence < 2/5) :
    ∃ sig, check_confidence c now = some sig ∧
      sig.drift_type = DriftType.staleness ∧
      sig.severity = 1 - c.confidence / (2/5) ∧
      (c.confidence < 1/5 → sig.recommended_action = "refresh") ∧
      (1/5 ≤ c.confidence → sig.recommended_action = "monitor") := by
  unfold check_confidence LOW_CONFIDENCE_THRESHOLD CRITICAL_CONFIDENCE_THRESHOLD
  rw [if_neg (not_le.mpr h)]
  refine ⟨_, rfl, rfl, rfl, fun hc => ?_, fun hc => ?_⟩
  · show (if c.confidence < 1/5 then "refresh" else "monitor") = "refresh"
    rw [if_pos hc]
  · show (if c.confidence < 1/5 then "refresh" else "monitor") = "monitor"
    rw [if_neg (not_lt.mpr hc)]

/-- The record used by the C9 witness and counterexample: confidence 0.3. -/
def c9rec : Ctx :=
  { id := 9, user_id := 4, context_type := ContextType.situational,
    memory_tier := MemoryTier.short_term, key := "commute_mode",
    value := "bike", interpretation := none, confidence := 3/10,
    source := "inference", source_details := none,
    drift_status := DriftStatus.stable, last_confirmed_at := none,
    correction_count := 0, expires_at := none, is_active := true,
    session_id := none, created_at := 0, updated_at := 0,
    deleted_at := none }

/-- Witness for C9 (amended) at confidence 0.3: a STALENESS signal with
action "monitor" and severity 0.25. -/
theorem check_confidence_signal_witness :
    ∃ sig, check_confidence c9rec 0 = some sig ∧
      sig.drift_type = DriftType.staleness ∧
      sig.severity = 1 - c9rec.confidence / (2/5) ∧
      (c9rec.confidence < 1/5 → sig.recommended_action = "refresh") ∧
      (1/5 ≤ c9rec.confidence → sig.recommended_action = "monitor") :=
  check_confidence_signal c9rec 0
    (by norm_num [c9rec])

/-- Counterexample to C9 as stated: at confidence 0.3 the emitted signal's
kind is STALENESS, not BEHAVIORAL_MISMATCH. -/
theorem low_confidence_signal_not_behavioral :
    (check_confidence c9rec 0).map DriftSignal.drift_type =
      some DriftType.staleness ∧
    DriftType.staleness ≠ DriftType.behavioral_mismatch := by
  constructor
  · norm_num [check_confidence, c9rec, LOW_CONFIDENCE_THRESHOLD,
      CRITICAL_CONFIDENCE_THRESHOLD]
  · intro h
    exact DriftType.noConfusion h

/-! Resolution bus slow path (app/core/event_bus.py).  One request id's
lifecycle is modelled as a state machine whose atomic steps are the await
boundaries of `_request_high_entropy_context` and `handle_response`; the
event loop may interleave them arbitrarily, so properties are stated over
every operation sequence.  The response payload is opaque (`Nat`). -/

/-- Bus state for one `request_id`. -/
structure BusState where
  started : Bool
  pending : Bool
  event_set : Bool
  caller_waiting : Bool
  result : Option Nat
  delivered : List (Option Nat)
deriving DecidableEq, Repr

/-- Before the request is issued. -/
def BusState.init : BusState :=
  { started := false, pending := false, event_set := false,
    caller_waiting := false, result := none, delivered := [] }

/-- Atomic bus events for one request id. -/
inductive BusOp where
  | start
  | respond (p : Nat)
  | deliver
  | timeout

/-- One atomic step.
`start`: `_request_high_entropy_context` lines 352-354 — register the
pending entry and begin awaiting (request ids are fresh uuid4 values, so a
second `start` for the same id cannot occur).
`respond p`: `handle_response` lines 390-415 — store the result in
`_results` unconditionally, then set the event only if the pending entry is
still present.
`deliver`: lines 370-384 — the awaited event has fired; the caller pops the
result (possibly absent) and returns it, and the `finally` clause removes
the pending entry.
`timeout`: `asyncio.wait_for` cancels the wait and the `finally` clause
removes the pending entry; `_results` is not touched. -/
def BusState.step (s : BusState) : BusOp → BusState
  | BusOp.start =>
    if s.started then s
    else { s with started := true, pending := true, caller_waiting := true }
  | BusOp.respond p =>
    if s.pending then { s with result := some p, event_set := true }
    else { s with result := some p }
  | BusOp.deliver =>
    if s.caller_waiting = true ∧ s.event_set = true then
      { s with
        delivered := s.delivered ++ [s.result]
        result := none
        pending := false
        caller_waiting := false }
    else s
  | BusOp.timeout =>
    if s.caller_waiting then
      { s with pending := false, caller_waiting := false }
    else s

/-- Run a sequence of bus events from the initial state. -/
def BusState.run (ops : List BusOp) : BusState :=
  ops.foldl BusState.step BusState.init

/-- Reachable-state invariant of the bus. -/
def BusInv (s : BusState) : Prop :=
  s.delivered.length ≤ 1 ∧
  (s.caller_waiting = true → s.started = true ∧ s.delivered = []) ∧
  (s.started = false → s.caller_waiting = false ∧ s.delivered = []) ∧
  (s.pending = true → s.caller_waiting = true)

theorem BusInv_init : BusInv BusState.init := by
  refine ⟨by simp [BusState.init], ?_, ?_, ?_⟩ <;>
    simp [BusState.init]

theorem BusInv_step {s : BusState} (h : BusInv s) (op : BusOp) :
    BusInv (s.step op) := by
  obtain ⟨h1, h2, h3, h4⟩ := h
  cases op with
  | start =>
    by_cases hs : s.started = true
    · simpa [BusState.step, hs] using ⟨h1, h2, h3, h4⟩
    · have hns : s.started = false := by revert hs; cases s.started <;> simp
      obtain ⟨hw, hd⟩ := h3 hns
      simp only [BusState.step, hns, if_neg]
      refine ⟨by simpa using h1, fun _ => ⟨rfl, hd⟩, by simp, fun _ => rfl⟩
  | respond p =>
    by_cases hp : s.pending = true
    · simp only [BusState.step, if_pos hp]
      exact ⟨h1, h2, h3, fun _ => h4 hp⟩
    · simp only [BusState.step, if_neg hp]
      exact ⟨h1, h2, h3, h4⟩
  | deliver =>
    by_cases hc : s.caller_waiting = true ∧ s.event_set = true
    · obtain ⟨hst, hd⟩ := h2 hc.1
      simp only [BusState.step, if_pos hc]
      refine ⟨?_, by simp, by simp [hst], by simp⟩
      simp [hd]
    · simpa [BusState.step, hc] using ⟨h1, h2, h3, h4⟩
  | timeout =>
    by_cases hw : s.caller_waiting = true
    · obtain ⟨hst, hd⟩ := h2 hw
      simp only [BusState.step, hw, if_pos]
      exact ⟨h1, by simp, by simp [hst], by simp⟩
    · simpa [BusState.step, hw] using ⟨h1, h2, h3, h4⟩

theorem BusInv_run (ops : List BusOp) : BusInv (BusState.run ops) := by
  suffices h : ∀ s, BusInv s → BusInv (ops.foldl BusState.step s) from
    h BusState.init BusInv_init
  induction ops with
  | nil => exact fun s h => h
  | cons op ops ih => exact fun s h => ih _ (BusInv_step h op)

/-- Once the caller is gone (request over or timed out), no later event
revives it: the delivery list is frozen and a buffered result stays
buffered. -/
theorem bus_finished_step {s : BusState} (hs : s.started = true)
    (hw : s.caller_waiting = false) (op : BusOp) :
    (s.step op).started = true ∧ (s.step op).caller_waiting = false ∧
    (s.step op).delivered = s.delivered ∧
    (s.result.isSome = true → (s.step op).result.isSome = true) := by
  cases op with
  | start => simp [BusState.step, hs, hw]
  | respond p =>
    by_cases hp : s.pending = true <;>
      simp [BusState.step, hp, hs, hw]
  | deliver =>
    have : ¬ (s.caller_waiting = true ∧ s.event_set = true) := by
      rw [hw]; simp
    simp [BusState.step, this, hs, hw]
  | timeout => simp [BusState.step, hw, hs]

theorem bus_finished_run {s : BusState} (hs : s.started = true)
    (hw : s.caller_waiting = false) (more : List BusOp) :
    (more.foldl BusState.step s).delivered = s.delivered ∧
    (s.result.isSome = true →
      (more.foldl BusState.step s).result.isSome = true) := by
  induction more generalizing s with
  | nil => exact ⟨rfl, fun h => h⟩
  | cons op ops ih =>
    obtain ⟨g1, g2, g3, g4⟩ := bus_finished_step hs hw op
    obtain ⟨i1, i2⟩ := ih g1 g2
    exact ⟨i1.trans g3, fun h => i2 (g4 h)⟩

/-- C8 (amended): for every request id, at most one response is delivered
to the waiting caller; a timeout removes the pending entry; and once the
caller is gone, later responses are never delivered — but their payload is
retained in the results map (it stays buffered rather than being cleaned
up). -/
theorem bus_at_most_one_delivery (ops : List BusOp) :
    (BusState.run ops).delivered.length ≤ 1 ∧
    ((BusState.run ops).step BusOp.timeout).pending = false ∧
    ((BusState.run ops).started = true →
      (BusState.run ops).caller_waiting = false →
      ∀ more,
        (BusState.run (ops ++ more)).delivered =
          (BusState.run ops).delivered ∧
        ((BusState.run ops).result.isSome = true →
          (BusState.run (ops ++ more)).result.isSome = true)) := by
  obtain ⟨h1, h2, h3, h4⟩ := BusInv_run ops
  refine ⟨h1, ?_, fun hs hw more => ?_⟩
  · by_cases hw : (BusState.run ops).caller_waiting = true
    · simp [BusState.step, hw]
    · have hw' : (BusState.run ops).caller_waiting = false := by
        revert hw; cases (BusState.run ops).caller_waiting <;> simp
      have hp : (BusState.run ops).pending = false := by
        by_contra hp
        have : (BusState.run ops).pending = true := by
          revert hp; cases (BusState.run ops).pending <;> simp
        rw [h4 this] at hw'
        exact Bool.noConfusion hw'
      simp [BusState.step, hw', hp]
  · have : BusState.run (ops ++ more) =
        more.foldl BusState.step (BusState.run ops) := by
      unfold BusState.run
      rw [List.foldl_append]
    rw [this]
    exact bus_finished_run hs hw more

/-- The C8 counterexample trace: request issued, deadline elapses, then the
response arrives late. -/
def c8trace : List BusOp := [BusOp.start, BusOp.timeout, BusOp.respond 7]

/-- Counterexample to C8 as stated: after a timeout, a late response is
never delivered and the pending entry is gone — but the payload is written
into the results map and retained, so it is buffered indefinitely rather
than dropped. -/
theorem late_response_stays_buffered :
    (BusState.run c8trace).delivered = [] ∧
    (BusState.run c8trace).pending = false ∧
    (BusState.run c8trace).result = some 7 := by
  refine ⟨by decide, by decide, by decide⟩

/-- Witness for C8 at the counterexample trace extended by another late
response and a delivery attempt: nothing is ever delivered and the buffered
result remains. -/
theorem bus_at_most_one_delivery_witness :
    (BusState.run c8trace).delivered.length ≤ 1 ∧
    ((BusState.run c8trace).step BusOp.timeout).pending = false ∧
    ((BusState.run (c8trace ++ [BusOp.respond 9, BusOp.deliver])).delivered =
      (BusState.run c8trace).delivered ∧
    ((BusState.run c8trace).result.isSome = true →
      (BusState.run (c8trace ++ [BusOp.respond 9, BusOp.deliver])).result.isSome
        = true)) :=
  ⟨(bus_at_most_one_delivery c8trace).1,
    (bus_at_most_one_delivery c8trace).2.1,
    (bus_at_most_one_delivery c8trace).2.2 (by decide) (by decide)
      [BusOp.respond 9, BusOp.deliver]⟩

/-! Timestamp interpretation (temporal.py `interpret`) and the fast-path
atomic context (event_bus.py `resolve_atomic_context`). -/

/-- The platform zone database (`zoneinfo`), restricted to fixed standard
offsets in seconds — no claim involves a DST transition.  `ZoneInfo(key)`
raises `ZoneInfoNotFoundError` for a key outside the database, modelled as
a failed lookup. -/
def zoneOffsetTable : List (String × ℤ) :=
  [("UTC", 0), ("America/New_York", -18000), ("America/Los_Angeles", -28800),
   ("Europe/London", 0), ("Europe/Paris", 3600), ("Asia/Tokyo", 32400),
   ("Asia/Kolkata", 19800), ("Australia/Sydney", 39600)]

/-- `ZoneInfo` lookup: the zone's UTC offset, or none for an unknown key. -/
def zoneOffset (tz : String) : Option ℤ :=
  (zoneOffsetTable.find? fun p => p.1 = tz).map Prod.snd

/-- `TimeOfDay` (app/schemas/temporal.py). -/
inductive TimeOfDay where
  | late_night
  | early_morning
  | morning
  | afternoon
  | evening
  | night
deriving DecidableEq, Repr

/-- `DayType` (app/schemas/temporal.py). -/
inductive DayType where
  | weekday
  | weekend
deriving DecidableEq, Repr

/-- `Season` (app/schemas/temporal.py). -/
inductive Season where
  | winter
  | spring
  | summer
  | autumn
deriving DecidableEq, Repr

/-- `_get_time_of_day` (temporal.py lines 367-372): first matching bucket
of `TIME_OF_DAY_RANGES` in insertion order, NIGHT as fallback. -/
def get_time_of_day (hour : ℕ) : TimeOfDay :=
  if hour < 5 then TimeOfDay.late_night
  else if 5 ≤ hour ∧ hour < 8 then TimeOfDay.early_morning
  else if 8 ≤ hour ∧ hour < 12 then TimeOfDay.morning
  else if 12 ≤ hour ∧ hour < 17 then TimeOfDay.afternoon
  else if 17 ≤ hour ∧ hour < 21 then TimeOfDay.evening
  else TimeOfDay.night

/-- `_get_day_type` (temporal.py lines 374-379). -/
def get_day_type (weekday : ℕ) : DayType :=
  if 5 ≤ weekday then DayType.weekend else DayType.weekday

/-- Season flip for the southern hemisphere (temporal.py lines 398-407). -/
def flipSeason : Season → Season
  | Season.winter => Season.summer
  | Season.summer => Season.winter
  | Season.spring => Season.autumn
  | Season.autumn => Season.spring

/-- `_get_season` (temporal.py lines 381-409). -/
def get_season (month : ℕ) (southern_hemisphere : Bool := false) : Season :=
  let base :=
    if month = 12 ∨ month = 1 ∨ month = 2 then some Season.winter
    else if month = 3 ∨ month = 4 ∨ month = 5 then some Season.spring
    else if month = 6 ∨ month = 7 ∨ month = 8 then some Season.summer
    else if month = 9 ∨ month = 10 ∨ month = 11 then some Season.autumn
    else none
  match base with
  | some s => if southern_hemisphere then flipSeason s else s
  | none => Season.winter

/-- `TemporalContext` (app/schemas/temporal.py): the interpreted local
instant (`timestamp` in local seconds, calendar fields in zone `z`). -/
structure TemporalContext where
  timestamp : ℤ
  timezone : String
  date : ℤ
  year : ℤ
  month : ℕ
  day : ℕ
  hour : ℕ
  minute : ℕ
  second : ℕ
  weekday : ℕ
  weekday_name : String
  utc_offset_hours : ℚ
  utc_timestamp : ℤ
  time_of_day : TimeOfDay
  day_type : DayType
  season : Season
  session_start : Option ℤ
  session_duration_minutes : Option ℚ
deriving Repr

/-- `TemporalEngine.interpret` (temporal.py lines 103-181) on an aware
timestamp (`utc`, seconds): `ZoneInfo(tz_str)` is evaluated first with no
handler, so an unknown timezone propagates as an error; otherwise the
instant is converted to the zone and classified. -/
def interpret (default_timezone : String) (utc : ℤ)
    (timezone : Option String) (session_start : Option ℤ) :
    Except String TemporalContext :=
  let tz_str := timezone.getD default_timezone
  match zoneOffset tz_str with
  | none => Except.error ("No time zone found with key " ++ tz_str)
  | some off =>
    let t := utc + off
    let d := localDay t
    let c := civilFromDays d
    Except.ok
      { timestamp := t
        timezone := tz_str
        date := d
        year := c.1
        month := c.2.1
        day := c.2.2
        hour := localHour t
        minute := localMinute t
        second := localSecs t % 60
        weekday := pyWeekday d
        weekday_name := weekdayName (pyWeekday d)
        utc_offset_hours := (off : ℚ) / 3600
        utc_timestamp := utc
        time_of_day := get_time_of_day (localHour t)
        day_type := get_day_type (pyWeekday d)
        season := get_season c.2.1
        session_start := session_start
        session_duration_minutes :=
          session_start.map fun ss => ((utc - ss : ℤ) : ℚ) / 60 }

/-- `strftime("%z")` plus the colon insertion of `resolve_atomic_context`
(event_bus.py lines 211-212). -/
def fmtOffset (off : ℤ) : String :=
  (if off < 0 then "-" else "+") ++ pad2 (off.natAbs / 3600) ++ ":" ++
    pad2 (off.natAbs % 3600 / 60)

/-- `datetime.isoformat()` of a local instant with a fixed offset. -/
def fmtIso (t off : ℤ) : String :=
  let c := civilFromDays (localDay t)
  toString c.1 ++ "-" ++ pad2 c.2.1 ++ "-" ++ pad2 c.2.2 ++ "T" ++
    pad2 (localHour t) ++ ":" ++ pad2 (localMinute t) ++ ":" ++
    pad2 (localSecs t % 60) ++ fmtOffset off

/-- `AtomicContext` (event_bus.py lines 33-88) with the derived fields its
`__post_init__` computes. -/
structure AtomicContext where
  timestamp : ℤ
  timestamp_iso : String
  day_of_week : String
  day_of_week_number : ℕ
  time_of_day : String
  hour_24 : ℕ
  minute : ℕ
  timezone : String
  timezone_offset : String
  locale : String
  language : String
  currency : String
  date_format : String
deriving DecidableEq, Repr

/-- The atomic context's coarser time-of-day buckets (event_bus.py lines
64-72). -/
def atomic_time_of_day (hour : ℕ) : String :=
  if 5 ≤ hour ∧ hour < 12 then "morning"
  else if 12 ≤ hour ∧ hour < 17 then "afternoon"
  else if 17 ≤ hour ∧ hour < 21 then "evening"
  else "night"

/-- `resolve_atomic_context` (event_bus.py lines 176-240): the zone lookup
is wrapped in `try/except`; on failure the current UTC instant is used and
the timezone silently becomes "UTC" — no warning is recorded anywhere on
the returned context. -/
def resolve_atomic_context (user_timezone : String)
    (user_locale : String := "en-US") (user_language : String := "en")
    (user_currency : String := "USD") (utcNow : ℤ := 0) : AtomicContext :=
  let ot : ℤ × String :=
    match zoneOffset user_timezone with
    | some o => (o, user_timezone)
    | none => (0, "UTC")
  let off := ot.1
  let now := utcNow + off
  let date_format :=
    if user_locale.startsWith "en-GB" ∨ user_locale.startsWith "en-AU" then
      "DD/MM/YYYY"
    else if user_locale.startsWith "zh" ∨ user_locale.startsWith "ja" ∨
        user_locale.startsWith "ko" then
      "YYYY/MM/DD"
    else
      "MM/DD/YYYY"
  { timestamp := now
    timestamp_iso := fmtIso now off
    day_of_week := weekdayName (pyWeekday (localDay now))
    day_of_week_number := pyWeekday (localDay now)
    time_of_day := atomic_time_of_day (localHour now)
    hour_24 := localHour now
    minute := localMinute now
    timezone := ot.2
    timezone_offset := fmtOffset off
    locale := user_locale
    language := user_language
    currency := user_currency
    date_format := date_format }

/-- The timezone warnings the `/api/v0/context/resolve` endpoint puts on
its response (api/v0/context.py lines 235-238): a warning only when no
timezone was provided at all. -/
def resolveWarnings (timezone : Option String) : List String :=
  match timezone with
  | none => ["No timezone provided, using UTC"]
  | some _ => []

/-- C6 (amended): for an unknown timezone string, the engine-level
interpret raises rather than falling back; the fast-path atomic resolution
catches the error and silently uses UTC (current UTC instant, timezone
field "UTC") without recording any warning — the enclosing response's
warnings stay empty, since a warning is only added when no timezone is
provided at all. -/
theorem unknown_timezone_behaviour (tz : String) (utc : ℤ)
    (h : zoneOffset tz = none) :
    interpret "UTC" utc (some tz) none =
      Except.error ("No time zone found with key " ++ tz) ∧
    (resolve_atomic_context tz "en-US" "en" "USD" utc).timezone = "UTC" ∧
    (resolve_atomic_context tz "en-US" "en" "USD" utc).timestamp = utc ∧
    resolveWarnings (some tz) = [] := by
  refine ⟨?_, ?_, ?_, rfl⟩
  · unfold interpret
    simp only [Option.getD]
    rw [h]
  · unfold resolve_atomic_context
    rw [h]
  · unfold resolve_atomic_context
    rw [h]
    simp

/-- Counterexample to C6 as stated: at the unknown zone "Mars/Olympus",
interpreting a timestamp raises (it does not fall back to UTC), and no
warning is marked on the enclosing response. -/
theorem interpret_unknown_timezone_raises :
    interpret "UTC" 0 (some "Mars/Olympus") none =
      Except.error ("No time zone found with key " ++ "Mars/Olympus") ∧
    resolveWarnings (some "Mars/Olympus") = [] := by
  constructor
  · rfl
  · rfl

/-- Witness for C6 (amended) at the unknown zone "Mars/Olympus". -/
theorem unknown_timezone_behaviour_witness :
    interpret "UTC" 86400 (some "Mars/Olympus") none =
      Except.error ("No time zone found with key " ++ "Mars/Olympus") ∧
    (resolve_atomic_context "Mars/Olympus" "en-US" "en" "USD" 86400).timezone
      = "UTC" ∧
    (resolve_atomic_context "Mars/Olympus" "en-US" "en" "USD" 86400).timestamp
      = 86400 ∧
    resolveWarnings (some "Mars/Olympus") = [] :=
  unknown_timezone_behaviour "Mars/Olympus" 86400 (by rfl)

/-! Reference resolution (temporal.py `resolve_reference`).  The pattern
tables are Python dicts iterated in insertion order; each pattern is a
word-bounded literal (`\b...\b`), modelled by an explicit word-boundary
search. -/

/-- Python's `\w` over the characters appearing here. -/
def isWordChar (c : Char) : Bool := c.isAlphanum || c = '_'

/-- pat is a prefix of s, character for character. -/
def charsPrefix : List Char → List Char → Bool
  | [], _ => true
  | _ :: _, [] => false
  | a :: as, b :: bs => a = b && charsPrefix as bs

/-- A word boundary before the match: start of string or a non-word
character. -/
def boundaryBefore : Option Char → Bool
  | none => true
  | some c => !(isWordChar c)

/-- A word boundary after the match: end of string or a non-word
character. -/
def boundaryAfter : List Char → Bool
  | [] => true
  | c :: _ => !(isWordChar c)

/-- The pattern matches here with a trailing word boundary. -/
def matchHere (pat s : List Char) : Bool :=
  charsPrefix pat s && boundaryAfter (s.drop pat.length)

/-- Scan for a word-bounded occurrence, tracking the previous character. -/
def searchAux (pat : List Char) (prev : Option Char) : List Char → Bool
  | [] => boundaryBefore prev && matchHere pat []
  | c :: rest =>
    (boundaryBefore prev && matchHere pat (c :: rest)) ||
      searchAux pat (some c) rest

/-- `re.search(r"\b<pat>\b", s)` for a literal `pat` that starts and ends
with word characters. -/
def wordSearch (pat s : String) : Bool :=
  searchAux pat.data none s.data

/-- `RELATIVE_DAY_PATTERNS` (temporal.py lines 70-76), in insertion
order. -/
def RELATIVE_DAY_PATTERNS : List (String × ℤ) :=
  [("day before yesterday", -2), ("day after tomorrow", 2), ("today", 0),
   ("yesterday", -1), ("tomorrow", 1)]

/-- `RELATIVE_TIME_PATTERNS` (temporal.py lines 78-88), in insertion
order — note that "now" precedes "right now" and "just now", despite the
file's NOTE that longer patterns must come first. -/
def RELATIVE_TIME_PATTERNS : List (String × String) :=
  [("now", "current"), ("right now", "current"), ("earlier", "past_session"),
   ("just now", "recent"), ("recently", "recent"), ("a moment ago", "recent"),
   ("soon", "near_future"), ("later", "future_session"),
   ("shortly", "near_future")]

/-- `TimeReferenceType` (app/schemas/temporal.py lines 138-145). -/
inductive TimeReferenceType where
  | absolute
  | relative_day
  | relative_time
  | relative_period
  | implicit
deriving DecidableEq, Repr

/-- `ResolvedTimeReference` (app/schemas/temporal.py lines 165-200);
alternative resolutions are `(window, confidence)` pairs. -/
structure ResolvedTimeReference where
  original_reference : String
  reference_type : TimeReferenceType
  resolved_start : ℤ
  resolved_end : Option ℤ
  resolution_method : String
  confidence : ℚ
  is_ambiguous : Bool
  alternative_resolutions : List (String × ℚ)
  human_readable : String
deriving Repr

/-- `strftime("%I:%M %p")` of a local instant. -/
def fmtIMp (t : ℤ) : String :=
  let h := localHour t
  let h12 := if h % 12 = 0 then 12 else h % 12
  pad2 h12 ++ ":" ++ pad2 (localMinute t) ++ " " ++
    (if h < 12 then "AM" else "PM")

/-- `strftime("%A, %B %d, %Y")` of a day number. -/
def fmtABdY (z : ℤ) : String :=
  let c := civilFromDays z
  weekdayName (pyWeekday z) ++ ", " ++ monthName c.2.1 ++ " " ++
    pad2 c.2.2 ++ ", " ++ toString c.1

/-- `_resolve_relative_day` (temporal.py lines 479-515). -/
def resolve_relative_day (text : String) (day_offset : ℤ)
    (anchor : TemporalContext) : ResolvedTimeReference :=
  let resolved_date := anchor.date + day_offset
  { original_reference := text
    reference_type := TimeReferenceType.relative_day
    resolved_start := resolved_date * 86400
    resolved_end := some (resolved_date * 86400 + (23 * 3600 + 59 * 60 + 59))
    resolution_method := "relative_day_offset_" ++ toString day_offset
    confidence := 19/20
    is_ambiguous := false
    alternative_resolutions := []
    human_readable := fmtABdY resolved_date }

/-- `_resolve_relative_time` (temporal.py lines 517-612). -/
def resolve_relative_time (text : String) (time_type : String)
    (anchor : TemporalContext) : ResolvedTimeReference :=
  if time_type = "current" then
    { original_reference := text
      reference_type := TimeReferenceType.relative_time
      resolved_start := anchor.timestamp
      resolved_end := none
      resolution_method := "current_moment"
      confidence := 99/100
      is_ambiguous := false
      alternative_resolutions := []
      human_readable := fmtIMp anchor.timestamp }
  else if time_type = "recent" then
    { original_reference := text
      reference_type := TimeReferenceType.relative_time
      resolved_start := anchor.timestamp - 15 * 60
      resolved_end := some anchor.timestamp
      resolution_method := "recent_window"
      confidence := 3/4
      is_ambiguous := true
      alternative_resolutions := [("5_minutes", 1/2), ("30_minutes", 3/5)]
      human_readable := "within the last few minutes" }
  else if time_type = "past_session" then
    match anchor.session_start with
    | some session_start =>
      { original_reference := text
        reference_type := TimeReferenceType.relative_time
        resolved_start := session_start
        resolved_end := some (anchor.timestamp - 5 * 60)
        resolution_method := "session_earlier"
        confidence := 7/10
        is_ambiguous := true
        alternative_resolutions := []
        human_readable := "earlier in this session" }
    | none =>
      { original_reference := text
        reference_type := TimeReferenceType.relative_time
        resolved_start := anchor.date * 86400
        resolved_end := some anchor.timestamp
        resolution_method := "earlier_today"
        confidence := 1/2
        is_ambiguous := true
        alternative_resolutions := []
        human_readable := "earlier today" }
  else if time_type = "near_future" ∨ time_type = "future_session" then
    let minutes_ahead : ℕ := if time_type = "near_future" then 30 else 60
    { original_reference := text
      reference_type := TimeReferenceType.relative_time
      resolved_start := anchor.timestamp
      resolved_end := some (anchor.timestamp + minutes_ahead * 60)
      resolution_method := "future_" ++ toString minutes_ahead ++ "m"
      confidence := 3/5
      is_ambiguous := true
      alternative_resolutions := []
      human_readable := "within the next " ++ toString minutes_ahead ++
        " minutes" }
  else
    { original_reference := text
      reference_type := TimeReferenceType.implicit
      resolved_start := anchor.timestamp
      resolved_end := none
      resolution_method := "fallback"
      confidence := 3/10
      is_ambiguous := true
      alternative_resolutions := []
      human_readable := "(time reference unclear)" }

/-- One directive of the strict date formats `_try_parse_absolute` tries
(temporal.py lines 621-630), as `strptime` reads them. -/
inductive FmtTok where
  | y4
  | mnum
  | dnum
  | bfull
  | babbr
  | ws
  | lit (c : Char)

/-- `%Y`: exactly four digits. -/
def parseY4 : List Char → Option (ℕ × List Char)
  | a :: b :: c :: d :: rest =>
    if a.isDigit && b.isDigit && c.isDigit && d.isDigit then
      some ((a.toNat - 48) * 1000 + (b.toNat - 48) * 100 +
        (c.toNat - 48) * 10 + (d.toNat - 48), rest)
    else none
  | _ => none

/-- `%m`: the alternation `1[0-2]|0[1-9]|[1-9]`, tried in that order. -/
def parseMonthNum : List Char → Option (ℕ × List Char)
  | [] => none
  | [c] => if '1' ≤ c ∧ c ≤ '9' then some (c.toNat - 48, []) else none
  | c :: c2 :: rest =>
    if c = '1' ∧ '0' ≤ c2 ∧ c2 ≤ '2' then some (10 + (c2.toNat - 48), rest)
    else if c = '0' ∧ '1' ≤ c2 ∧ c2 ≤ '9' then some (c2.toNat - 48, rest)
    else if '1' ≤ c ∧ c ≤ '9' then some (c.toNat - 48, c2 :: rest)
    else none

/-- `%d`: the alternation `3[01]|[12]\d|0[1-9]|[1-9]`, tried in that
order. -/
def parseDayNum : List Char → Option (ℕ × List Char)
  | [] => none
  | [c] => if '1' ≤ c ∧ c ≤ '9' then some (c.toNat - 48, []) else none
  | c :: c2 :: rest =>
    if c = '3' ∧ (c2 = '0' ∨ c2 = '1') then some (30 + (c2.toNat - 48), rest)
    else if (c = '1' ∨ c = '2') ∧ c2.isDigit then
      some ((c.toNat - 48) * 10 + (c2.toNat - 48), rest)
    else if c = '0' ∧ '1' ≤ c2 ∧ c2 ≤ '9' then some (c2.toNat - 48, rest)
    else if '1' ≤ c ∧ c ≤ '9' then some (c.toNat - 48, c2 :: rest)
    else none

/-- Full month names for `%B` (matching is case-insensitive and the input
is already lower-cased; no name is a prefix of another, so order is
immaterial). -/
def monthNamesFull : List (String × ℕ) :=
  [("january", 1), ("february", 2), ("march", 3), ("april", 4), ("may", 5),
   ("june", 6), ("july", 7), ("august", 8), ("september", 9),
   ("october", 10), ("november", 11), ("december", 12)]

/-- Abbreviated month names for `%b`. -/
def monthNamesAbbr : List (String × ℕ) :=
  [("jan", 1), ("feb", 2), ("mar", 3), ("apr", 4), ("may", 5), ("jun", 6),
   ("jul", 7), ("aug", 8), ("sep", 9), ("oct", 10), ("nov", 11), ("dec", 12)]

/-- Match one name of the table as a prefix of the input. -/
def parseMonthName (table : List (String × ℕ)) (s : List Char) :
    Option (ℕ × List Char) :=
  (table.find? fun p => charsPrefix p.1.data s).map
    fun p => (p.2, s.drop p.1.data.length)

/-- `\s+`: one or more whitespace characters. -/
def parseWs : List Char → Option (List Char)
  | c :: rest =>
    if c.isWhitespace then some (rest.dropWhile Char.isWhitespace) else none
  | [] => none

/-- Run a format over the input; `strptime` requires the whole string to be
consumed ("unconverted data remains" otherwise). -/
def runFmt : List FmtTok → List Char →
    Option ℕ × Option ℕ × Option ℕ → Option (Option ℕ × Option ℕ × Option ℕ)
  | [], s, acc => if s.isEmpty then some acc else none
  | FmtTok.y4 :: toks, s, (_, m, d) =>
    (parseY4 s).bind fun p => runFmt toks p.2 (some p.1, m, d)
  | FmtTok.mnum :: toks, s, (y, _, d) =>
    (parseMonthNum s).bind fun p => runFmt toks p.2 (y, some p.1, d)
  | FmtTok.dnum :: toks, s, (y, m, _) =>
    (parseDayNum s).bind fun p => runFmt toks p.2 (y, m, some p.1)
  | FmtTok.bfull :: toks, s, (y, _, d) =>
    (parseMonthName monthNamesFull s).bind fun p =>
      runFmt toks p.2 (y, some p.1, d)
  | FmtTok.babbr :: toks, s, (y, _, d) =>
    (parseMonthName monthNamesAbbr s).bind fun p =>
      runFmt toks p.2 (y, some p.1, d)
  | FmtTok.ws :: toks, s, acc =>
    (parseWs s).bind fun rest => runFmt toks rest acc
  | FmtTok.lit c :: toks, s, acc =>
    match s with
    | c' :: rest => if c' = c then runFmt toks rest acc else none
    | [] => none

/-- The format list of `_try_parse_absolute` (temporal.py lines 621-630),
each with its directives. -/
def absoluteFormats : List (String × List FmtTok) :=
  [("%Y-%m-%d", [FmtTok.y4, FmtTok.lit '-', FmtTok.mnum, FmtTok.lit '-',
      FmtTok.dnum]),
   ("%m/%d/%Y", [FmtTok.mnum, FmtTok.lit '/', FmtTok.dnum, FmtTok.lit '/',
      FmtTok.y4]),
   ("%d/%m/%Y", [FmtTok.dnum, FmtTok.lit '/', FmtTok.mnum, FmtTok.lit '/',
      FmtTok.y4]),
   ("%B %d, %Y", [FmtTok.bfull, FmtTok.ws, FmtTok.dnum, FmtTok.lit ',',
      FmtTok.ws, FmtTok.y4]),
   ("%B %d", [FmtTok.bfull, FmtTok.ws, FmtTok.dnum]),
   ("%b %d, %Y", [FmtTok.babbr, FmtTok.ws, FmtTok.dnum, FmtTok.lit ',',
      FmtTok.ws, FmtTok.y4]),
   ("%b %d", [FmtTok.babbr, FmtTok.ws, FmtTok.dnum])]

/-- Gregorian leap year. -/
def isLeap (y : ℤ) : Bool :=
  (y % 4 = 0 ∧ ¬ y % 100 = 0) ∨ y % 400 = 0

/-- Days in a month (0 outside 1..12). -/
def daysInMonth (y : ℤ) (m : ℕ) : ℕ :=
  if m = 2 then (if isLeap y then 29 else 28)
  else if m = 1 ∨ m = 3 ∨ m = 5 ∨ m = 7 ∨ m = 8 ∨ m = 10 ∨ m = 12 then 31
  else if m = 4 ∨ m = 6 ∨ m = 9 ∨ m = 11 then 30
  else 0

/-- `_try_parse_absolute` (temporal.py lines 614-656): try each strict
format in order; `strptime` defaults a missing year to 1900 and validates
the date at construction; a parsed year of exactly 1900 is replaced by the
anchor's year (revalidated); the result is a midnight instant in the
anchor's zone with confidence 0.9. -/
def try_parse_absolute (text : String) (anchor : TemporalContext) :
    Option ResolvedTimeReference :=
  absoluteFormats.findSome? fun fmt =>
    match runFmt fmt.2 text.data (none, none, none) with
    | none => none
    | some (yOpt, mOpt, dOpt) =>
      match mOpt, dOpt with
      | some m, some d =>
        let y0 : ℤ := (yOpt.getD 1900 : ℕ)
        if d ≤ daysInMonth y0 m then
          let y : ℤ := if y0 = 1900 then anchor.year else y0
          if d ≤ daysInMonth y m then
            let day := daysFromCivil y m d
            some
              { original_reference := text
                reference_type := TimeReferenceType.absolute
                resolved_start := day * 86400
                resolved_end := none
                resolution_method := "parsed_format_" ++ fmt.1
                confidence := 9/10
                is_ambiguous := false
                alternative_resolutions := []
                human_readable := fmtABdY day }
          else none
        else none
      | _, _ => none

/-- `str.lower()` (over the ASCII references in play). -/
def strLower (s : String) : String := String.mk (s.data.map Char.toLower)

/-- `str.strip()`. -/
def strTrim (s : String) : String :=
  String.mk
    (((s.data.dropWhile Char.isWhitespace).reverse.dropWhile
      Char.isWhitespace).reverse)

/-- `resolve_reference` (temporal.py lines 230-287): lower-case and strip
the reference, try the relative-day patterns in order, then the
relative-time patterns in order, then the absolute formats, and fall back
to the current instant with confidence 0.2. -/
def resolve_reference (reference_text : String) (anchor : TemporalContext) :
    ResolvedTimeReference :=
  let text := strTrim (strLower reference_text)
  match RELATIVE_DAY_PATTERNS.find? fun p => wordSearch p.1 text with
  | some p => resolve_relative_day text p.2 anchor
  | none =>
  match RELATIVE_TIME_PATTERNS.find? fun p => wordSearch p.1 text with
  | some p => resolve_relative_time text p.2 anchor
  | none =>
  match try_parse_absolute text anchor with
  | some r => r
  | none =>
    { original_reference := reference_text
      reference_type := TimeReferenceType.implicit
      resolved_start := anchor.timestamp
      resolved_end := none
      resolution_method := "fallback_to_current"
      confidence := 1/5
      is_ambiguous := true
      alternative_resolutions := []
      human_readable :=
        "(unable to resolve '" ++ text ++ "', using current time)" }

/-- C7, evaluated on the code: because the short pattern "now" precedes
"just now" in `RELATIVE_TIME_PATTERNS` (violating the file's own
longest-first NOTE), resolving "just now" returns the exact current
instant with confidence 0.99 and no ambiguity — not the claimed
[t−15m, t] window; "recently" and "a moment ago" do return that window
with confidence 0.75 marked ambiguous. -/
theorem resolve_reference_just_now_behaviour (anchor : TemporalContext) :
    (resolve_reference "just now" anchor).resolution_method =
      "current_moment" ∧
    (resolve_reference "just now" anchor).confidence = 99/100 ∧
    (resolve_reference "just now" anchor).is_ambiguous = false ∧
    (resolve_reference "just now" anchor).resolved_start = anchor.timestamp ∧
    (resolve_reference "just now" anchor).resolved_end = none ∧
    (resolve_reference "recently" anchor).resolution_method =
      "recent_window" ∧
    (resolve_reference "recently" anchor).confidence = 3/4 ∧
    (resolve_reference "recently" anchor).is_ambiguous = true ∧
    (resolve_reference "recently" anchor).resolved_start =
      anchor.timestamp - 15 * 60 ∧
    (resolve_reference "recently" anchor).resolved_end =
      some anchor.timestamp ∧
    (resolve_reference "a moment ago" anchor).resolution_method =
      "recent_window" ∧
    (resolve_reference "a moment ago" anchor).confidence = 3/4 ∧
    (resolve_reference "a moment ago" anchor).is_ambiguous = true ∧
    (resolve_reference "a moment ago" anchor).resolved_start =
      anchor.timestamp - 15 * 60 ∧
    (resolve_reference "a moment ago" anchor).resolved_end =
      some anchor.timestamp := by
  refine ⟨?_, ?_, ?_, ?_, ?_, ?_, ?_, ?_, ?_, ?_, ?_, ?_, ?_, ?_, ?_⟩ <;> rfl

/-! Prompt composer (app/engines/composer.py).  JSON scalars inside element
values are modelled by their `str()` rendering; a value dict is an ordered
list of `(key, optional rendered scalar)`.  The claims exercise the default
SYSTEM_PROMPT injection style and the situational path — the temporal and
spatial builders read only a fixed whitelist of keys (`current_time`,
`formatted`, `semantics`; `country`, `region`, `city`, `locale`, ...), so
the situational `implicit_assumptions` dict is the only place arbitrary
caller-supplied keys reach element building. -/

/-- Substring test (`needle in haystack` on Python strings). -/
def charsSubstr (p : List Char) : List Char → Bool
  | [] => p.isEmpty
  | c :: rest => charsPrefix p (c :: rest) || charsSubstr p rest

/-- Python's `in` for strings. -/
def strContains (needle hay : String) : Bool :=
  charsSubstr needle.data hay.data

/-- `TEMPORAL_KEYWORDS` (composer.py lines 147-152). -/
def TEMPORAL_KEYWORDS : List String :=
  ["today", "tomorrow", "yesterday", "now", "later", "soon",
   "morning", "afternoon", "evening", "night", "week", "month",
   "schedule", "meeting", "deadline", "when", "time", "date",
   "remind", "appointment", "calendar", "o'clock", "am", "pm"]

/-- `SPATIAL_KEYWORDS` (composer.py lines 155-159). -/
def SPATIAL_KEYWORDS : List String :=
  ["here", "there", "near", "nearby", "local", "location",
   "weather", "timezone", "country", "city", "region",
   "restaurant", "store", "place", "address", "directions"]

/-- `SITUATIONAL_KEYWORDS` (composer.py lines 162-166). -/
def SITUATIONAL_KEYWORDS : List String :=
  ["this", "that", "it", "they", "continue", "again",
   "same", "previous", "earlier", "before", "last time",
   "as i said", "mentioned", "working on", "project"]

/-- `_analyze_message` (composer.py lines 268-294): substring keyword
counts per domain, normalised by 5 and capped at 1. -/
def analyze_message (message : String) : ℚ × ℚ × ℚ :=
  let ml := strLower message
  let tm := (TEMPORAL_KEYWORDS.filter fun kw => strContains kw ml).length
  let sm := (SPATIAL_KEYWORDS.filter fun kw => strContains kw ml).length
  let im := (SITUATIONAL_KEYWORDS.filter fun kw => strContains kw ml).length
  (min 1 ((tm : ℚ) / 5), min 1 ((sm : ℚ) / 5), min 1 ((im : ℚ) / 5))

/-- `ContextRelevance` (composer.py lines 23-29). -/
inductive ContextRelevance where
  | critical
  | high
  | medium
  | low
  | irrelevant
deriving DecidableEq, Repr

/-- `ContextElement` (composer.py lines 40-80). -/
structure ContextElement where
  key : String
  value : List (String × Option String)
  context_type : String
  relevance : ContextRelevance
  confidence : ℚ
  token_estimate : ℕ
  source : String := "inferred"
  interpretation : Option String := none
deriving Repr

/-- The relevance weights of `inclusion_score` (composer.py lines 72-79). -/
def relevance_weight : ContextRelevance → ℚ
  | ContextRelevance.critical => 1
  | ContextRelevance.high => 4/5
  | ContextRelevance.medium => 1/2
  | ContextRelevance.low => 1/5
  | ContextRelevance.irrelevant => 0

/-- `inclusion_score` (composer.py line 80). -/
def inclusion_score (e : ContextElement) : ℚ :=
  relevance_weight e.relevance * e.confidence

/-- `_score_to_relevance` (composer.py lines 440-451). -/
def score_to_relevance (score : ℚ) : ContextRelevance :=
  if 4/5 ≤ score then ContextRelevance.critical
  else if 3/5 ≤ score then ContextRelevance.high
  else if 2/5 ≤ score then ContextRelevance.medium
  else if 1/5 ≤ score then ContextRelevance.low
  else ContextRelevance.irrelevant

/-- One entry of `active_tasks` as the builder reads it. -/
structure SituTask where
  description : Option String
  status : Option String
  confidence : Option ℚ

/-- The `current_thread` dict as the builder reads it. -/
structure SituThread where
  topic : Option String
  message_count : ℕ
  duration_minutes : Option String

/-- The situational interpretation passed to the composer. -/
structure SituationalCtx where
  active_tasks : List SituTask
  current_thread : Option SituThread
  implicit_assumptions : List (String × Option String)

/-- `_build_situational_elements` (composer.py lines 383-438): the primary
active task, the conversation thread (when more than one message), and the
whole `implicit_assumptions` dict — passed through with no key
filtering. -/
def build_situational_elements (context : SituationalCtx)
    (base_relevance : ℚ) : List ContextElement :=
  let task_elems : List ContextElement :=
    match context.active_tasks with
    | [] => []
    | primary :: _ =>
      [{ key := "current_task"
         value := [("description", primary.description),
                   ("status", primary.status)]
         context_type := "situational"
         relevance := score_to_relevance (2/5 + base_relevance * (3/5))
         confidence := primary.confidence.getD (3/5)
         token_estimate := 35
         interpretation := some ("User is working on: " ++
           primary.description.getD "unknown task") }]
  let thread_elems : List ContextElement :=
    match context.current_thread with
    | some thread =>
      if 1 < thread.message_count then
        [{ key := "conversation_context"
           value := [("topic", thread.topic),
                     ("message_count", some (toString thread.message_count)),
                     ("duration_minutes", thread.duration_minutes)]
           context_type := "situational"
           relevance := score_to_relevance (base_relevance * (7/10))
           confidence := 7/10
           token_estimate := 20 }]
      else []
    | none => []
  let assumption_elems : List ContextElement :=
    if context.implicit_assumptions.isEmpty then []
    else
      [{ key := "assumptions"
         value := context.implicit_assumptions
         context_type := "situational"
         relevance := score_to_relevance (base_relevance * (1/2))
         confidence := 1/2
         token_estimate := 40 }]
  task_elems ++ thread_elems ++ assumption_elems

/-- Stable descending insertion by `inclusion_score` — the effect of
`elements.sort(key=..., reverse=True)` with Python's stable sort. -/
def insertByScore (e : ContextElement) : List ContextElement →
    List ContextElement
  | [] => [e]
  | a :: rest =>
    if inclusion_score e ≤ inclusion_score a then a :: insertByScore e rest
    else e :: a :: rest

/-- Sort elements by inclusion score, descending, stably. -/
def sortByScore (l : List ContextElement) : List ContextElement :=
  l.foldl (fun acc e => insertByScore e acc) []

/-- `MAX_CONTEXT_TOKENS` default (app/core/config.py). -/
def MAX_CONTEXT_TOKENS : ℕ := 500

/-- `MIN_RELEVANCE_SCORE` default (app/core/config.py). -/
def MIN_RELEVANCE_SCORE : ℚ := 3/10

/-- `_select_elements` (composer.py lines 453-485): skip irrelevant, skip
low confidence, include within budget, and include critical elements even
over budget. -/
def select_elements (max_tokens : ℕ) (min_relevance : ℚ) :
    List ContextElement → ℕ → List ContextElement × List ContextElement
  | [], _ => ([], [])
  | e :: rest, cur =>
    if e.relevance = ContextRelevance.irrelevant then
      let p := select_elements max_tokens min_relevance rest cur
      (p.1, e :: p.2)
    else if e.confidence < min_relevance then
      let p := select_elements max_tokens min_relevance rest cur
      (p.1, e :: p.2)
    else if cur + e.token_estimate ≤ max_tokens then
      let p := select_elements max_tokens min_relevance rest
        (cur + e.token_estimate)
      (e :: p.1, p.2)
    else if e.relevance = ContextRelevance.critical then
      let p := select_elements max_tokens min_relevance rest
        (cur + e.token_estimate)
      (e :: p.1, p.2)
    else
      let p := select_elements max_tokens min_relevance rest cur
      (p.1, e :: p.2)

/-- `_value_to_string` on a dict value (composer.py lines 569-577). -/
def value_to_string (value : List (String × Option String)) : String :=
  String.intercalate ", "
    ((value.filter fun p => p.2.isSome).map fun p => p.1 ++ "=" ++ p.2.getD "")

/-- A temporal or situational line of `_format_as_system_prompt`
(interpretation preferred). -/
def interpLine (e : ContextElement) : String :=
  match e.interpretation with
  | some i => "- " ++ i
  | none => "- " ++ e.key ++ ": " ++ value_to_string e.value

/-- `_format_as_system_prompt` (composer.py lines 505-542). -/
def format_as_system_prompt (elements : List ContextElement) : String :=
  let temporal := elements.filter fun e => e.context_type = "temporal"
  let spatial := elements.filter fun e => e.context_type = "spatial"
  let situational := elements.filter fun e => e.context_type = "situational"
  let lines :=
    ["## Current Context"] ++
    (if temporal.isEmpty then []
     else "\n### Time & Date" :: temporal.map interpLine) ++
    (if spatial.isEmpty then []
     else "\n### Location" :: spatial.map fun e =>
       "- " ++ e.key ++ ": " ++ value_to_string e.value) ++
    (if situational.isEmpty then []
     else "\n### Context" :: situational.map interpLine) ++
    ["\n---",
     "Use this context to ground your responses in the user's reality.",
     "Do not mention this context unless directly relevant to the user's query."]
  String.intercalate "\n" lines

/-- `ComposedPrompt` (composer.py lines 83-113), the fields the claims
read. -/
structure ComposedPrompt where
  system_context : String
  user_message : String
  included_context : List ContextElement
  excluded_context : List ContextElement
  total_tokens : ℕ
deriving Repr

/-- `compose` (composer.py lines 183-266) on the situational path with the
default SYSTEM_PROMPT injection style: analyse the message, build
situational candidate elements, sort by inclusion score, select within the
budget, and format; `_format_context` returns "" for an empty selection. -/
def compose (user_message : String)
    (situational_context : Option SituationalCtx) : ComposedPrompt :=
  let signals := analyze_message user_message
  let elements :=
    match situational_context with
    | some ctx => build_situational_elements ctx signals.2.2
    | none => []
  let sorted := sortByScore elements
  let sel := select_elements MAX_CONTEXT_TOKENS MIN_RELEVANCE_SCORE sorted 0
  let system_context :=
    if sel.1.isEmpty then "" else format_as_system_prompt sel.1
  { system_context := system_context
    user_message := user_message
    included_context := sel.1
    excluded_context := sel.2
    total_tokens := (sel.1.map ContextElement.token_estimate).sum }

/-- The C1 failing input: a situational map whose implicit assumptions
carry credential-keyed fields. -/
def c1situ : SituationalCtx :=
  { active_tasks := []
    current_thread := none
    implicit_assumptions :=
      [("ssn", some "123-45-6789"),
       ("api_key", some "sk-AAAAAAAAAAAAAAAAAAAAAAAAAAAAAAAA")] }

/-- The C1 failing input message (five situational keywords). -/
def c1msg : String := "continue working on that same project"

/-- The assumptions element the composer builds from the C1 input. -/
def c1elem : ContextElement :=
  { key := "assumptions"
    value := [("ssn", some "123-45-6789"),
              ("api_key", some "sk-AAAAAAAAAAAAAAAAAAAAAAAAAAAAAAAA")]
    context_type := "situational"
    relevance := ContextRelevance.medium
    confidence := 1/2
    token_estimate := 40
    source := "inferred"
    interpretation := none }

/-- C1, evaluated on the code: the composer performs no credential-key
filtering, so the SSN and API-key values supplied under the keys "ssn" and
"api_key" of the situational map's implicit assumptions are rendered into
systemContext verbatim. -/
theorem composer_leaks_credential_values :
    strContains "123-45-6789" (compose c1msg (some c1situ)).system_context
      = true ∧
    strContains "sk-AAAAAAAAAAAAAAAAAAAAAAAAAAAAAAAA"
      (compose c1msg (some c1situ)).system_context = true ∧
    (compose c1msg (some c1situ)).user_message = c1msg := by
  have hcount : (SITUATIONAL_KEYWORDS.filter fun kw =>
      strContains kw (strLower c1msg)).length = 5 := by decide
  have hb : (analyze_message c1msg).2.2 = 1 := by
    simp only [analyze_message]
    rw [hcount]
    norm_num
  have hsys : (compose c1msg (some c1situ)).system_context =
      format_as_system_prompt [c1elem] := by
    simp only [compose]
    rw [hb]
    norm_num +decide [build_situational_elements, c1situ, c1elem,
      score_to_relevance, sortByScore, insertByScore, select_elements,
      MAX_CONTEXT_TOKENS, MIN_RELEVANCE_SCORE, List.foldl]
  refine ⟨?_, ?_, rfl⟩ <;> rw [hsys] <;> decide

/-- Session start of the C5 witness: 2026-01-03 23:00 local time. -/
def c5s : ℤ := daysFromCivil 2026 1 3 * 86400 + 23 * 3600

/-- Current time of the C5 witness: 2026-01-04 00:30 local time. -/
def c5t : ℤ := daysFromCivil 2026 1 4 * 86400 + 30 * 60

/-- Witness for C5 at the specification's scenario (session start
2026-01-03 23:00, now 2026-01-04 00:30, zone offset fixed): crossover
detected, today = 2026-01-03, confidence 0.7, reasoning non-empty. -/
theorem midnight_crossover_policy_witness :
    (handle_midnight_crossover c5s c5t).has_crossed_midnight = true ∧
    (handle_midnight_crossover c5s c5t).session_started_date =
      daysFromCivil 2026 1 3 ∧
    (handle_midnight_crossover c5s c5t).today_date = daysFromCivil 2026 1 3 ∧
    (handle_midnight_crossover c5s c5t).confidence = 7/10 ∧
    (handle_midnight_crossover c5s c5t).reasoning ≠ "" := by
  have h := midnight_crossover_policy c5s c5t (by decide)
  have hb : localHour c5t < 4 ∧ c5t - c5s < 21600 := by decide
  obtain ⟨h1, h2, _, h4, _, h6, _⟩ := h
  obtain ⟨h41, h42, _⟩ := h4 hb
  have hsd : localDay c5s = daysFromCivil 2026 1 3 := by decide
  exact ⟨h1, h2.trans hsd, h41.trans hsd, h42, h6⟩

end RAL
